import Mathlib

/-!
Shallow embedding of the drone-scheduler core (TypeScript sources):
the priority queue `PriorityQueue.ts`, the dispatch engine
`FlightScheduler.ts` (class `ZipScheduler`), and the flight record
`Flight.ts`.

Numbers are modelled by `ℚ` (JavaScript `number` arithmetic on the
values the program actually manipulates); `Order.time` is `ℤ` since it
is produced by `parseInt`.  `Math.sqrt` is modelled by an arbitrary
function `sq : ℚ → ℚ` supplied as a parameter: none of the general
properties proved below depend on its values, and concrete scenarios
instantiate it with `sqrtQ`, which agrees with the real square root on
the perfect squares those scenarios use.

Loops of the source are modelled by structurally fuelled recursion so
every definition is executable; every fuel argument used by the
top-level entry points is large enough for the recursion to reach its
exit condition, which the lemmas below make precise.

Logging (`logger.info` / `logger.error` / …) is modelled by structured
`LogEvent` values returned alongside each method's result, so that
"a rejection is reported" style claims are statable.
-/

set_option maxHeartbeats 1600000

/-- The two acceptable priorities (`type Priority = "Emergency" | "Resupply"`). -/
inductive Priority where
  | Emergency : Priority
  | Resupply : Priority
deriving DecidableEq, Repr

/-- `const PRIORITY_ORDER: Priority[] = ["Emergency", "Resupply"]`. -/
def PRIORITY_ORDER : List Priority := [Priority.Emergency, Priority.Resupply]

/-- `const RESERVED_EMERGENCY_ZIPS = 4` (module constant of FlightScheduler.ts). -/
def RESERVED_EMERGENCY_ZIPS : ℤ := 4

/-- `const ZIP_MAX_CUMULATIVE_RANGE_M = 160 * 1000` (module constant of Flight.ts,
used by the `Flight` constructor for the battery estimate). -/
def FLIGHT_ZIP_MAX_CUMULATIVE_RANGE_M : ℚ := 160 * 1000

/-- Hospital.ts: `class Hospital { name; northM; eastM }`. -/
structure Hospital where
  name : String
  northM : ℚ
  eastM : ℚ
deriving DecidableEq, Repr

instance : Inhabited Hospital := ⟨⟨"", 0, 0⟩⟩

/-- Order.ts: `class Order { id; time; hospital; priority }`; `time` comes from
`parseInt`, hence `ℤ`. -/
structure Order where
  id : String
  time : ℤ
  hospital : Hospital
  priority : Priority
deriving DecidableEq, Repr

instance : Inhabited Order := ⟨⟨"", 0, default, Priority.Resupply⟩⟩

/-- A planar point `{ northM, eastM }` as passed to `calculateDistance`. -/
structure Point where
  northM : ℚ
  eastM : ℚ
deriving DecidableEq, Repr

/-- The depot / Nest `{ northM: 0, eastM: 0 }`. -/
def nestPoint : Point := ⟨0, 0⟩

/-- Coordinates of a hospital as a `Point`. -/
def Hospital.toPoint (h : Hospital) : Point := ⟨h.northM, h.eastM⟩

/-- ZipScheduler.calculateDistance: straight-line distance
`Math.sqrt(deltaX ** 2 + deltaY ** 2)` with `deltaX = B.northM - A.northM`,
`deltaY = B.eastM - A.eastM`; `Math.sqrt` is the parameter `sq`. -/
def calculateDistance (sq : ℚ → ℚ) (pointA pointB : Point) : ℚ :=
  sq ((pointB.northM - pointA.northM) ^ 2 + (pointB.eastM - pointA.eastM) ^ 2)

/-- An exact square root on `ℚ`: exact on perfect squares (numerator and
denominator both perfect squares), used to instantiate `sq` in concrete
scenarios.  `isqrtStep` is a structurally fuelled Newton iteration so that the
definition evaluates by `decide`/`simp`. -/
def isqrtStep : ℕ → ℕ → ℕ → ℕ
  | 0, _, x => x
  | fuel + 1, n, x =>
    let next := (x + n / x) / 2
    if next < x then isqrtStep fuel n next else x

/-- Integer square root (floor), via fuelled Newton iteration. -/
def isqrt (n : ℕ) : ℕ :=
  if n ≤ 1 then n else isqrtStep n n n

/-- Rational square root used by concrete scenarios; exact on perfect squares. -/
def sqrtQ (q : ℚ) : ℚ :=
  (isqrt q.num.toNat : ℚ) / (isqrt q.den : ℚ)

/-- Structured rendering of the `logger` calls of the source. -/
inductive LogEvent where
  | errorOrderExceedsRange (orderId : String) : LogEvent
  | infoOrderQueued (orderId : String) : LogEvent
  | infoFlightCompleted : LogEvent
  | errorSkipEmergencyFlight : LogEvent
  | verboseSkipResupplyFlight : LogEvent
  | errorFailedDequeue (orderId : String) : LogEvent
  | verboseOrderDequeued (orderId : String) : LogEvent
  | verboseOrderSkippedRange (orderId : String) : LogEvent
deriving DecidableEq, Repr

/-- PriorityQueue.ts: `interface PriorityQueueElement { order: Order }`. -/
structure PriorityQueueElement where
  order : Order
deriving DecidableEq, Repr

instance : Inhabited PriorityQueueElement := ⟨⟨default⟩⟩

namespace PriorityQueue

/-- Index of a priority in `PRIORITY_ORDER` (`priorityOrder.indexOf`). -/
def priorityIdx (p : Priority) : ℤ :=
  match p with
  | Priority.Emergency => 0
  | Priority.Resupply => 1

/-- `PriorityQueue.compare`: priority class first
(`priorityOrder.indexOf(a.priority) - priorityOrder.indexOf(b.priority)`),
then arrival time (`a.time - b.time`). -/
def compare (a b : Order) : ℤ :=
  let priorityDiff := priorityIdx a.priority - priorityIdx b.priority
  if priorityDiff ≠ 0 then priorityDiff else a.time - b.time

/-- The heap is a `List PriorityQueueElement`; `hGet` is array indexing
(out-of-range reads return the default element; all in-range uses are
established by the lemmas below). -/
def hGet (heap : List PriorityQueueElement) (i : ℕ) : PriorityQueueElement :=
  heap.getD i default

/-- The order stored at index `i`. -/
def val (heap : List PriorityQueueElement) (i : ℕ) : Order :=
  (hGet heap i).order

/-- `PriorityQueue.swap`: exchange two heap slots. -/
def swap (heap : List PriorityQueueElement) (i j : ℕ) : List PriorityQueueElement :=
  (heap.set i (hGet heap j)).set j (hGet heap i)

/-- `PriorityQueue.bubbleUp`, with structural fuel; one fuel unit per loop
iteration (the index strictly decreases, so fuel `i + 1` always reaches the
exit condition). -/
def bubbleUp : ℕ → List PriorityQueueElement → ℕ → List PriorityQueueElement
  | 0, heap, _ => heap
  | fuel + 1, heap, index =>
    if 0 < index then
      let parentIndex := (index - 1) / 2
      if compare (val heap index) (val heap parentIndex) < 0 then
        bubbleUp fuel (swap heap index parentIndex) parentIndex
      else heap
    else heap

/-- The body of one `bubbleDown` iteration: index of the smallest among the
slot `index` and its (in-range) children, computed exactly as the source's
two successive guarded comparisons. -/
def smallestIdx (heap : List PriorityQueueElement) (index : ℕ) : ℕ :=
  let smallest1 :=
    if 2 * index + 1 < heap.length ∧
        compare (val heap (2 * index + 1)) (val heap index) < 0 then
      2 * index + 1
    else index
  if 2 * index + 2 < heap.length ∧
      compare (val heap (2 * index + 2)) (val heap smallest1) < 0 then
    2 * index + 2
  else smallest1

/-- `PriorityQueue.bubbleDown`, with structural fuel; one fuel unit per loop
iteration (the index strictly increases and stays below the length, so fuel
`heap.length` always reaches the exit condition). -/
def bubbleDown : ℕ → List PriorityQueueElement → ℕ → List PriorityQueueElement
  | 0, heap, _ => heap
  | fuel + 1, heap, index =>
    let smallest := smallestIdx heap index
    if smallest ≠ index then bubbleDown fuel (swap heap index smallest) smallest else heap

/-- `PriorityQueue.enqueue`: push then bubble up from the last slot. -/
def enqueue (heap : List PriorityQueueElement) (order : Order) : List PriorityQueueElement :=
  bubbleUp (heap.length + 1) (heap ++ [⟨order⟩]) heap.length

/-- `PriorityQueue.dequeue`: remove and return the root. -/
def dequeue (heap : List PriorityQueueElement) :
    Option Order × List PriorityQueueElement :=
  if heap.length = 0 then (none, heap)
  else if heap.length = 1 then ((hGet heap 0).order, [])
  else
    let top := (hGet heap 0).order
    let heap1 := (heap.dropLast).set 0 (hGet heap (heap.length - 1))
    (top, bubbleDown heap1.length heap1 0)

/-- `PriorityQueue.dequeueById`: locate by id, swap in the last element, then
restore the heap by sifting in both directions. -/
def dequeueById (heap : List PriorityQueueElement) (id : String) :
    Option Order × List PriorityQueueElement :=
  match heap.findIdx? (fun element => element.order.id = id) with
  | none => (none, heap)
  | some index =>
    let order := (hGet heap index).order
    if index ≠ heap.length - 1 then
      let heap1 := (heap.dropLast).set index (hGet heap (heap.length - 1))
      (some order, bubbleUp heap1.length (bubbleDown heap1.length heap1 index) index)
    else
      (some order, heap.dropLast)

/-- `PriorityQueue.peek`. -/
def peek (heap : List PriorityQueueElement) : Option Order :=
  if 0 < heap.length then some (hGet heap 0).order else none

/-- `PriorityQueue.isEmpty`. -/
def isEmpty (heap : List PriorityQueueElement) : Bool :=
  heap.length = 0

/-- `PriorityQueue.size`. -/
def size (heap : List PriorityQueueElement) : ℕ :=
  heap.length

/-- `PriorityQueue.toArray`: a fresh array of the stored orders
(`this.heap.map((element) => element.order)`). -/
def toArray (heap : List PriorityQueueElement) : List Order :=
  heap.map (fun element => element.order)

/-- Comparator viewed as a preorder: `a` may come no later than `b`. -/
def le (a b : Order) : Prop := compare a b ≤ 0

instance : DecidablePred fun p : Order × Order => le p.1 p.2 := by
  intro p; unfold le; infer_instance

instance (a b : Order) : Decidable (le a b) := by
  unfold le; infer_instance

/-- Binary-heap invariant: every non-root slot is no smaller than its parent
under the comparator. -/
def IsHeap (heap : List PriorityQueueElement) : Prop :=
  ∀ j, j < heap.length → 0 < j → le (val heap ((j - 1) / 2)) (val heap j)

instance (heap : List PriorityQueueElement) : Decidable (IsHeap heap) := by
  unfold IsHeap; exact Nat.decidableBallLT _ _

/-- Sift-up precondition: the heap property may fail only on the edge from
`i`'s parent to `i`, and `i`'s parent already bounds every child of `i`.
`bubbleUp` started at `i` restores the full heap property from this state. -/
def UpInv (heap : List PriorityQueueElement) (i : ℕ) : Prop :=
  (∀ j, j < heap.length → 0 < j → j ≠ i →
    le (val heap ((j - 1) / 2)) (val heap j)) ∧
  (∀ j, j < heap.length → 0 < j → (j - 1) / 2 = i → 0 < i →
    le (val heap ((i - 1) / 2)) (val heap j))

/-- Sift-down precondition: the heap property may fail only on the edges from
`i` to its children, and `i`'s parent already bounds every child of `i`.
`bubbleDown` started at `i` restores the full heap property from this state. -/
def DownInv (heap : List PriorityQueueElement) (i : ℕ) : Prop :=
  (∀ j, j < heap.length → 0 < j → (j - 1) / 2 ≠ i →
    le (val heap ((j - 1) / 2)) (val heap j)) ∧
  (∀ j, j < heap.length → 0 < j → (j - 1) / 2 = i → 0 < i →
    le (val heap ((i - 1) / 2)) (val heap j))

end PriorityQueue

/-- Flight.ts: immutable flight record. -/
structure Flight where
  launchTime : ℚ
  orders : List Order
  totalDistance : ℚ
  estimatedReturnBatteryPercentage : ℚ
  flightPath : String
deriving DecidableEq, Repr

/-- `Flight.getFlightPath`: `orders.map(o => name (priority)).join(" -> ") + " -> Nest"`. -/
def flightPathString (orders : List Order) : String :=
  String.intercalate " -> "
    (orders.map (fun order => order.hospital.name ++ " (" ++
      (match order.priority with
       | Priority.Emergency => "Emergency"
       | Priority.Resupply => "Resupply") ++ ")")) ++ " -> Nest"

/-- The `Flight` constructor: battery estimate uses the Flight.ts module
constant `ZIP_MAX_CUMULATIVE_RANGE_M`, not the scheduler's configured range. -/
def mkFlight (launchTime : ℚ) (orders : List Order) (totalDistance : ℚ) : Flight :=
  { launchTime := launchTime
    orders := orders
    totalDistance := totalDistance
    estimatedReturnBatteryPercentage :=
      100 - totalDistance / FLIGHT_ZIP_MAX_CUMULATIVE_RANGE_M * 100
    flightPath := flightPathString orders }

instance : Inhabited Flight := ⟨mkFlight 0 [] 0⟩

/-- An entry of `activeFlights`: `{ returnTime, flight }`. -/
structure ActiveFlight where
  returnTime : ℚ
  flight : Flight
deriving DecidableEq, Repr

instance : Inhabited ActiveFlight := ⟨⟨0, default⟩⟩

/-- FlightScheduler.ts: the `ZipScheduler` class — constructor configuration
plus the mutable fields `completeOrderCount`, `_unfulfilledOrders` (the
priority queue's backing heap) and `activeFlights`. -/
structure ZipScheduler where
  hospitals : List (String × Hospital)
  numZips : ℕ
  maxPackagesPerZip : ℕ
  zipSpeedMps : ℚ
  zipMaxCumulativeRangeM : ℚ
  completeOrderCount : ℕ
  unfulfilledOrders : List PriorityQueueElement
  activeFlights : List ActiveFlight
deriving DecidableEq, Repr

/-- The `ZipScheduler` constructor. -/
def mkZipScheduler (hospitals : List (String × Hospital)) (numZips maxPackagesPerZip : ℕ)
    (zipSpeedMps zipMaxCumulativeRangeM : ℚ) : ZipScheduler :=
  { hospitals := hospitals
    numZips := numZips
    maxPackagesPerZip := maxPackagesPerZip
    zipSpeedMps := zipSpeedMps
    zipMaxCumulativeRangeM := zipMaxCumulativeRangeM
    completeOrderCount := 0
    unfulfilledOrders := []
    activeFlights := [] }

namespace ZipScheduler

/-- `get unfulfilledOrdersCount()`. -/
def unfulfilledOrdersCount (s : ZipScheduler) : ℕ :=
  PriorityQueue.size s.unfulfilledOrders

/-- `getUnfulfilledOrders()`. -/
def getUnfulfilledOrders (s : ZipScheduler) : List Order :=
  PriorityQueue.toArray s.unfulfilledOrders

/-- `countByPriority`. -/
def countByPriority (s : ZipScheduler) (priority : Priority) : ℕ :=
  ((PriorityQueue.toArray s.unfulfilledOrders).filter
    (fun o => o.priority = priority)).length

/-- `queueOrder`: validate round-trip reachability
(`2 × distance(Nest, hospital) > zipMaxCumulativeRangeM` rejects), else enqueue. -/
def queueOrder (sq : ℚ → ℚ) (s : ZipScheduler) (order : Order) :
    ZipScheduler × List LogEvent :=
  let distance := 2 * calculateDistance sq nestPoint order.hospital.toPoint
  if distance > s.zipMaxCumulativeRangeM then
    (s, [LogEvent.errorOrderExceedsRange order.id])
  else
    ({ s with unfulfilledOrders := PriorityQueue.enqueue s.unfulfilledOrders order },
     [LogEvent.infoOrderQueued order.id])

/-- `releaseReturningZips`: drop every active flight whose `returnTime ≤
currentTime`, adding its stop count to `completeOrderCount`. -/
def releaseReturningZips (s : ZipScheduler) (currentTime : ℚ) :
    ZipScheduler × List LogEvent :=
  let released := s.activeFlights.filter (fun entry => entry.returnTime ≤ currentTime)
  ({ s with
      activeFlights := s.activeFlights.filter (fun entry => ¬ entry.returnTime ≤ currentTime)
      completeOrderCount :=
        s.completeOrderCount + (released.map (fun entry => entry.flight.orders.length)).sum },
   released.map (fun _ => LogEvent.infoFlightCompleted))

/-- `calculateReturnTime`. -/
def calculateReturnTime (s : ZipScheduler) (launchTime totalDistance : ℚ) : ℚ :=
  launchTime + totalDistance / s.zipSpeedMps

/-- One comparison step of `findNearestOrder`: keep the strictly nearer of the
running best and the next order (the running minimum starts at `Infinity`, so
the first order always replaces `none`; ties keep the earlier order). -/
def nearerOrder (sq : ℚ → ℚ) (currentLocation : Point) (acc : Option (Order × ℚ))
    (order : Order) : Option (Order × ℚ) :=
  let distance := calculateDistance sq currentLocation order.hospital.toPoint
  match acc with
  | none => some (order, distance)
  | some best => if distance < best.2 then some (order, distance) else acc

/-- `planFlight`'s inner helper `findNearestOrder`: nearest order of a list
measured from `currentLocation`, first-seen winning ties. -/
def findNearestOrder (sq : ℚ → ℚ) (currentLocation : Point) (orders : List Order) :
    Option (Order × ℚ) :=
  orders.foldl (nearerOrder sq currentLocation) none

/-- The selection step of `planFlight`: split the snapshot into the
`Emergency` and non-`Emergency` sub-pools and take the nearest of the
`Emergency` pool if it is non-empty, else the nearest non-`Emergency` order. -/
def selectOrder (sq : ℚ → ℚ) (currentLocation : Point) (availableOrders : List Order) :
    Option (Order × ℚ) :=
  let emergencyOrders := availableOrders.filter (fun o => o.priority = Priority.Emergency)
  let nonEmergencyOrders := availableOrders.filter (fun o => ¬ o.priority = Priority.Emergency)
  match findNearestOrder sq currentLocation emergencyOrders with
  | some nearest => some nearest
  | none => findNearestOrder sq currentLocation nonEmergencyOrders

/-- One `while` pass of `planFlight`: fuelled structurally; every iteration
splices one element out of `availableOrders`, so fuel `availableOrders.length`
always reaches the exit condition.  Returns the accumulated stops, the running
distance, the current location and the per-iteration log events. -/
def planLoop (sq : ℚ → ℚ) (maxPackagesPerZip : ℕ) (zipMaxCumulativeRangeM : ℚ) :
    ℕ → List Order → ℚ → Point → List Order →
    List Order × ℚ × Point × List LogEvent
  | 0, flightOrders, totalDistance, currentLocation, _ =>
    (flightOrders, totalDistance, currentLocation, [])
  | fuel + 1, flightOrders, totalDistance, currentLocation, availableOrders =>
    if flightOrders.length < maxPackagesPerZip ∧ 0 < availableOrders.length then
      match selectOrder sq currentLocation availableOrders with
      | none => (flightOrders, totalDistance, currentLocation, [])
      | some (selectedOrder, distanceToOrder) =>
        let selectedOrderIndex := availableOrders.indexOf selectedOrder
        let distanceBackToNest :=
          calculateDistance sq selectedOrder.hospital.toPoint nestPoint
        let newTotalDistance := totalDistance + distanceToOrder + distanceBackToNest
        if newTotalDistance ≤ zipMaxCumulativeRangeM then
          let r := planLoop sq maxPackagesPerZip zipMaxCumulativeRangeM fuel
            (flightOrders ++ [selectedOrder]) (totalDistance + distanceToOrder)
            selectedOrder.hospital.toPoint
            (availableOrders.eraseIdx selectedOrderIndex)
          (r.1, r.2.1, r.2.2.1, r.2.2.2)
        else
          let r := planLoop sq maxPackagesPerZip zipMaxCumulativeRangeM fuel
            flightOrders totalDistance currentLocation
            (availableOrders.eraseIdx selectedOrderIndex)
          (r.1, r.2.1, r.2.2.1,
            LogEvent.verboseOrderSkippedRange selectedOrder.id :: r.2.2.2)
    else (flightOrders, totalDistance, currentLocation, [])

/-- `planFlight`: plan one flight against a snapshot (`getUnfulfilledOrders`
returns a fresh array) of the pending orders; the scheduler state is returned
untouched, as the method only splices the snapshot copy. -/
def planFlight (sq : ℚ → ℚ) (s : ZipScheduler) :
    (List Order × ℚ × List LogEvent) × ZipScheduler :=
  let availableOrders := getUnfulfilledOrders s
  let r := planLoop sq s.maxPackagesPerZip s.zipMaxCumulativeRangeM
    availableOrders.length [] 0 nestPoint availableOrders
  let flightOrders := r.1
  let totalDistance := r.2.1
  let currentLocation := r.2.2.1
  let totalDistance1 :=
    if 0 < flightOrders.length then
      totalDistance + calculateDistance sq currentLocation nestPoint
    else totalDistance
  ((flightOrders, totalDistance1, r.2.2.2), s)

/-- One step of the dequeue phase: remove a planned stop by id; a failed
removal leaves the queue unchanged and is logged as an error (`Failed to
dequeue order`), a successful one is logged as verbose. -/
def dequeueStep (acc : List PriorityQueueElement × List LogEvent) (order : Order) :
    List PriorityQueueElement × List LogEvent :=
  let r := PriorityQueue.dequeueById acc.1 order.id
  match r.1 with
  | none => (r.2, acc.2 ++ [LogEvent.errorFailedDequeue order.id])
  | some _ => (r.2, acc.2 ++ [LogEvent.verboseOrderDequeued order.id])

/-- The dequeue-and-schedule tail of one dispatch iteration (lines 447–462 of
FlightScheduler.ts): remove each planned stop by id — a failed removal is only
logged — then construct the `Flight`, push it, and schedule the active entry. -/
def dispatchPlannedFlight (s : ZipScheduler) (currentTime : ℚ)
    (flightOrders : List Order) (totalDistance : ℚ) :
    Flight × ZipScheduler × List LogEvent :=
  let dequeued := flightOrders.foldl dequeueStep (s.unfulfilledOrders, [])
  let flight := mkFlight currentTime flightOrders totalDistance
  let returnTime := calculateReturnTime s currentTime totalDistance
  (flight,
   { s with
      unfulfilledOrders := dequeued.1
      activeFlights := s.activeFlights ++ [⟨returnTime, flight⟩] },
   dequeued.2)

/-- The `while` loop of `launchFlights`, fuelled by the available-Zip count
(each launch decrements `availableZips` by one, so fuel `availableZips.toNat`
always reaches the exit condition). -/
def launchLoop (sq : ℚ → ℚ) (currentTime : ℚ) :
    ℕ → ℤ → ZipScheduler → List Flight × ZipScheduler × List LogEvent
  | 0, _, s => ([], s, [])
  | fuel + 1, availableZips, s =>
    if 0 < availableZips ∧ ¬ PriorityQueue.isEmpty s.unfulfilledOrders then
      let emergencyCount := countByPriority s Priority.Emergency
      let plan := (planFlight sq s).1
      let flightOrders := plan.1
      let totalDistance := plan.2.1
      if flightOrders.length = 0 then ([], s, [])
      else if emergencyCount ≠ 0 ∧ availableZips < 1 then
        ([], s, [LogEvent.errorSkipEmergencyFlight])
      else if emergencyCount = 0 ∧ availableZips < RESERVED_EMERGENCY_ZIPS then
        ([], s, [LogEvent.verboseSkipResupplyFlight])
      else
        let d := dispatchPlannedFlight s currentTime flightOrders totalDistance
        let rest := launchLoop sq currentTime fuel (availableZips - 1) d.2.1
        (d.1 :: rest.1, rest.2.1, d.2.2 ++ rest.2.2)
    else ([], s, [])

/-- `launchFlights`: release returning Zips, then dispatch while Zips and
orders remain. -/
def launchFlights (sq : ℚ → ℚ) (s : ZipScheduler) (currentTime : ℚ) :
    List Flight × ZipScheduler × List LogEvent :=
  let rel := releaseReturningZips s currentTime
  let s1 := rel.1
  let availableZips : ℤ := (s1.numZips : ℤ) - s1.activeFlights.length
  if PriorityQueue.isEmpty s1.unfulfilledOrders then ([], s1, rel.2)
  else
    let r := launchLoop sq currentTime availableZips.toNat availableZips s1
    (r.1, r.2.1, rel.2 ++ r.2.2)

/-- `get activeFlightsCount()`. -/
def activeFlightsCount (s : ZipScheduler) : ℕ :=
  s.activeFlights.length

end ZipScheduler

/-- Events a driver may send the scheduler (the Runner calls `queueOrder` per
arriving order and `launchFlights` per tick). -/
inductive SchedEvent where
  | queueOrder (order : Order) : SchedEvent
  | launchFlights (currentTime : ℚ) : SchedEvent

/-- Apply one driver event to the scheduler state. -/
def applyEvent (sq : ℚ → ℚ) (s : ZipScheduler) : SchedEvent → ZipScheduler
  | SchedEvent.queueOrder order => (ZipScheduler.queueOrder sq s order).1
  | SchedEvent.launchFlights currentTime => (ZipScheduler.launchFlights sq s currentTime).2.1

/-- Run a sequence of driver events from a state. -/
def runEvents (sq : ℚ → ℚ) (s : ZipScheduler) (events : List SchedEvent) : ZipScheduler :=
  events.foldl (applyEvent sq) s

namespace PriorityQueue

/-- Repeatedly `dequeue` until the queue is empty (fuelled; fuel
`heap.length` suffices since every dequeue shrinks the heap). -/
def drainHeap : ℕ → List PriorityQueueElement → List Order
  | 0, _ => []
  | fuel + 1, heap =>
    match dequeue heap with
    | (some top, rest) => top :: drainHeap fuel rest
    | (none, _) => []

end PriorityQueue

/-- Every order held in the scheduler's queue passes the admission bound of
`queueOrder`: its round trip fits in the configured range.  This is the
reachable-state invariant behind the reservation and range-rejection claims. -/
def ZipScheduler.AdmissibleQueue (sq : ℚ → ℚ) (s : ZipScheduler) : Prop :=
  ∀ element ∈ s.unfulfilledOrders,
    2 * calculateDistance sq nestPoint element.order.hospital.toPoint ≤
      s.zipMaxCumulativeRangeM

/-! ### Comparator algebra -/

namespace PriorityQueue

theorem le_iff (a b : Order) :
    le a b ↔ (priorityIdx a.priority < priorityIdx b.priority ∨
      (priorityIdx a.priority = priorityIdx b.priority ∧ a.time ≤ b.time)) := by
  unfold le compare
  dsimp only
  split_ifs with h
  · omega
  · omega

theorem lt_iff (a b : Order) :
    compare a b < 0 ↔ (priorityIdx a.priority < priorityIdx b.priority ∨
      (priorityIdx a.priority = priorityIdx b.priority ∧ a.time < b.time)) := by
  unfold compare
  dsimp only
  split_ifs with h
  · omega
  · omega

theorem not_lt_iff_le (a b : Order) : ¬ compare a b < 0 ↔ le b a := by
  rw [lt_iff, le_iff]
  omega

theorem lt_le (a b : Order) (h : compare a b < 0) : le a b := by
  rw [lt_iff] at h
  rw [le_iff]
  omega

theorem le_trans (a b c : Order) (hab : le a b) (hbc : le b c) : le a c := by
  rw [le_iff] at hab hbc ⊢
  omega

theorem le_refl (a : Order) : le a a := by
  rw [le_iff]
  omega

/-! ### Heap indexing and slot access -/

theorem parent_lt {j : ℕ} (h : 0 < j) : (j - 1) / 2 < j := by omega

theorem hGet_set_self (l : List PriorityQueueElement) (i : ℕ) (x : PriorityQueueElement)
    (h : i < l.length) : hGet (l.set i x) i = x := by
  unfold hGet
  rw [List.getD_eq_getElem _ _ (by simpa using h)]
  exact List.getElem_set_self _

theorem hGet_set_ne (l : List PriorityQueueElement) (i j : ℕ) (x : PriorityQueueElement)
    (h : i ≠ j) : hGet (l.set i x) j = hGet l j := by
  unfold hGet
  by_cases hj : j < l.length
  · rw [List.getD_eq_getElem _ _ (by simpa using hj), List.getD_eq_getElem _ _ hj]
    exact List.getElem_set_of_ne h x _
  · rw [List.getD_eq_default _ _ (by simpa using hj), List.getD_eq_default _ _ (by omega)]

theorem length_swap (l : List PriorityQueueElement) (i j : ℕ) :
    (swap l i j).length = l.length := by
  unfold swap
  simp

theorem val_swap_fst (l : List PriorityQueueElement) {i j : ℕ} (hi : i < l.length)
    (hne : i ≠ j) : val (swap l i j) i = val l j := by
  unfold val swap
  rw [hGet_set_ne _ _ _ _ (fun h => hne h.symm), hGet_set_self _ _ _ hi]

theorem val_swap_snd (l : List PriorityQueueElement) {i j : ℕ} (hj : j < l.length) :
    val (swap l i j) j = val l i := by
  unfold val swap
  rw [hGet_set_self _ _ _ (by simpa using hj)]

theorem val_swap_other (l : List PriorityQueueElement) {i j k : ℕ} (hki : k ≠ i)
    (hkj : k ≠ j) : val (swap l i j) k = val l k := by
  unfold val swap
  rw [hGet_set_ne _ _ _ _ (fun h => hkj h.symm), hGet_set_ne _ _ _ _ (fun h => hki h.symm)]

end PriorityQueue

namespace PriorityQueue

theorem lt_trans' (a b c : Order) (hab : compare a b < 0) (hbc : compare b c < 0) :
    compare a c < 0 := by
  rw [lt_iff] at hab hbc ⊢
  omega

theorem hGet_cons_zero (e : PriorityQueueElement) (t : List PriorityQueueElement) :
    hGet (e :: t) 0 = e := rfl

theorem hGet_cons_succ (e : PriorityQueueElement) (t : List PriorityQueueElement) (k : ℕ) :
    hGet (e :: t) (k + 1) = hGet t k := rfl

theorem set_cons_perm (t : List PriorityQueueElement) (k : ℕ) (a : PriorityQueueElement)
    (hk : k < t.length) : List.Perm (hGet t k :: t.set k a) (a :: t) := by
  induction t generalizing k with
  | nil => simp at hk
  | cons b r ih =>
    cases k with
    | zero =>
      rw [hGet_cons_zero, List.set_cons_zero]
      exact List.Perm.swap _ _ _
    | succ k =>
      rw [hGet_cons_succ, List.set_cons_succ]
      refine (List.Perm.swap _ _ _).trans ?h
      refine ((ih k (by simpa using hk)).cons b).trans ?h2
      exact List.Perm.swap _ _ _

theorem swap_perm (l : List PriorityQueueElement) :
    ∀ i j : ℕ, i < j → j < l.length → List.Perm (swap l i j) l := by
  induction l with
  | nil => intro i j _ hj; simp at hj
  | cons a t ih =>
    intro i j hij hj
    cases i with
    | zero =>
      cases j with
      | zero => omega
      | succ m =>
        unfold swap
        rw [hGet_cons_succ, List.set_cons_zero, hGet_cons_zero, List.set_cons_succ]
        exact set_cons_perm t m a (by simpa using hj)
    | succ i1 =>
      cases j with
      | zero => omega
      | succ m =>
        unfold swap
        rw [hGet_cons_succ, hGet_cons_succ, List.set_cons_succ, List.set_cons_succ]
        exact (ih i1 m (by omega) (by simpa using hj)).cons a

theorem swap_perm_ne (l : List PriorityQueueElement) {i j : ℕ} (hne : i ≠ j)
    (hi : i < l.length) (hj : j < l.length) : List.Perm (swap l i j) l := by
  rcases Nat.lt_or_ge i j with h | h
  · exact swap_perm l i j h hj
  · have hji : j < i := by omega
    have heq : swap l i j = swap l j i := by
      unfold swap
      rw [List.set_comm _ _ _ hne]
    rw [heq]
    exact swap_perm l j i hji hi

/-- Case analysis on `smallestIdx`: either nothing moves and `i` already
bounds its in-range children, or the selected child is in range, strictly
smaller than `i`'s element, and bounds both in-range children. -/
theorem smallestIdx_spec (l : List PriorityQueueElement) (i : ℕ) :
    (smallestIdx l i = i ∧
      (2 * i + 1 < l.length → le (val l i) (val l (2 * i + 1))) ∧
      (2 * i + 2 < l.length → le (val l i) (val l (2 * i + 2)))) ∨
    (smallestIdx l i ≠ i ∧ smallestIdx l i < l.length ∧ i < smallestIdx l i ∧
      (smallestIdx l i = 2 * i + 1 ∨ smallestIdx l i = 2 * i + 2) ∧
      compare (val l (smallestIdx l i)) (val l i) < 0 ∧
      (2 * i + 1 < l.length → le (val l (smallestIdx l i)) (val l (2 * i + 1))) ∧
      (2 * i + 2 < l.length → le (val l (smallestIdx l i)) (val l (2 * i + 2)))) := by
  unfold smallestIdx
  by_cases hl : 2 * i + 1 < l.length ∧ compare (val l (2 * i + 1)) (val l i) < 0
  · rw [if_pos hl]
    by_cases hr : 2 * i + 2 < l.length ∧
        compare (val l (2 * i + 2)) (val l (2 * i + 1)) < 0
    · rw [if_pos hr]
      refine Or.inr ⟨by omega, hr.1, by omega, Or.inr rfl,
        lt_trans' _ _ _ hr.2 hl.2, fun _ => lt_le _ _ hr.2, fun _ => le_refl _⟩
    · rw [if_neg hr]
      refine Or.inr ⟨by omega, hl.1, by omega, Or.inl rfl, hl.2,
        fun _ => le_refl _, fun h2 => ?hro⟩
      have := (not_lt_iff_le _ _).mp (fun hc => hr ⟨h2, hc⟩)
      exact this
  · rw [if_neg hl]
    by_cases hr : 2 * i + 2 < l.length ∧ compare (val l (2 * i + 2)) (val l i) < 0
    · rw [if_pos hr]
      refine Or.inr ⟨by omega, hr.1, by omega, Or.inr rfl, hr.2, fun h1 => ?hlo,
        fun _ => le_refl _⟩
      have hil : le (val l i) (val l (2 * i + 1)) :=
        (not_lt_iff_le _ _).mp (fun hc => hl ⟨h1, hc⟩)
      exact le_trans _ _ _ (lt_le _ _ hr.2) hil
    · rw [if_neg hr]
      refine Or.inl ⟨rfl, fun h1 => (not_lt_iff_le _ _).mp (fun hc => hl ⟨h1, hc⟩),
        fun h2 => (not_lt_iff_le _ _).mp (fun hc => hr ⟨h2, hc⟩)⟩

theorem bubbleUp_length : ∀ (fuel : ℕ) (l : List PriorityQueueElement) (i : ℕ),
    (bubbleUp fuel l i).length = l.length := by
  intro fuel
  induction fuel with
  | zero => intro l i; rfl
  | succ fuel ih =>
    intro l i
    show (if 0 < i then
        if compare (val l i) (val l ((i - 1) / 2)) < 0 then
          bubbleUp fuel (swap l i ((i - 1) / 2)) ((i - 1) / 2)
        else l
      else l).length = l.length
    split_ifs with h1 h2
    · rw [ih, length_swap]
    · rfl
    · rfl

theorem bubbleUp_perm : ∀ (fuel : ℕ) (l : List PriorityQueueElement) (i : ℕ),
    i < l.length → List.Perm (bubbleUp fuel l i) l := by
  intro fuel
  induction fuel with
  | zero => intro l i _; exact List.Perm.refl l
  | succ fuel ih =>
    intro l i hi
    show List.Perm (if 0 < i then
        if compare (val l i) (val l ((i - 1) / 2)) < 0 then
          bubbleUp fuel (swap l i ((i - 1) / 2)) ((i - 1) / 2)
        else l
      else l) l
    split_ifs with h1 h2
    · have hp : (i - 1) / 2 < i := parent_lt h1
      have hswap : List.Perm (swap l i ((i - 1) / 2)) l :=
        swap_perm_ne l (by omega) hi (by omega)
      exact (ih _ _ (by rw [length_swap]; omega)).trans hswap
    · exact List.Perm.refl l
    · exact List.Perm.refl l

theorem bubbleDown_length : ∀ (fuel : ℕ) (l : List PriorityQueueElement) (i : ℕ),
    (bubbleDown fuel l i).length = l.length := by
  intro fuel
  induction fuel with
  | zero => intro l i; rfl
  | succ fuel ih =>
    intro l i
    show (if smallestIdx l i ≠ i then
        bubbleDown fuel (swap l i (smallestIdx l i)) (smallestIdx l i)
      else l).length = l.length
    split_ifs with h1
    · rw [ih, length_swap]
    · rfl

theorem bubbleDown_perm : ∀ (fuel : ℕ) (l : List PriorityQueueElement) (i : ℕ),
    List.Perm (bubbleDown fuel l i) l := by
  intro fuel
  induction fuel with
  | zero => intro l i; exact List.Perm.refl l
  | succ fuel ih =>
    intro l i
    show List.Perm (if smallestIdx l i ≠ i then
        bubbleDown fuel (swap l i (smallestIdx l i)) (smallestIdx l i)
      else l) l
    split_ifs with h1
    · rcases smallestIdx_spec l i with ⟨heq, _⟩ | ⟨_, hrange, hgt, _⟩
      · exact absurd heq h1
      · have hswap : List.Perm (swap l i (smallestIdx l i)) l :=
          swap_perm_ne l (by omega) (by omega) hrange
        exact (ih _ _).trans hswap
    · exact List.Perm.refl l

end PriorityQueue

namespace PriorityQueue

theorem bubbleUp_isHeap : ∀ (fuel : ℕ) (l : List PriorityQueueElement) (i : ℕ),
    i < fuel → i < l.length → UpInv l i → IsHeap (bubbleUp fuel l i) := by
  intro fuel
  induction fuel with
  | zero => intro l i hfuel _ _; omega
  | succ fuel ih =>
    intro l i hfuel hi inv
    show IsHeap (if 0 < i then
        if compare (val l i) (val l ((i - 1) / 2)) < 0 then
          bubbleUp fuel (swap l i ((i - 1) / 2)) ((i - 1) / 2)
        else l
      else l)
    split_ifs with h0 hcmp
    · have hplt : (i - 1) / 2 < i := parent_lt h0
      have hple : (i - 1) / 2 < l.length := by omega
      refine ih _ _ (by omega) (by rw [length_swap]; omega) ?hinv
      have vi : val (swap l i ((i - 1) / 2)) i = val l ((i - 1) / 2) :=
        val_swap_fst l hi (by omega)
      have vp : val (swap l i ((i - 1) / 2)) ((i - 1) / 2) = val l i :=
        val_swap_snd l hple
      constructor
      · intro j hj hjpos hjp
        rw [length_swap] at hj
        by_cases hji : j = i
        · subst hji
          rw [vi, vp]
          exact lt_le _ _ hcmp
        · have hvj : val (swap l i ((i - 1) / 2)) j = val l j :=
            val_swap_other l hji hjp
          rw [hvj]
          by_cases hpji : (j - 1) / 2 = i
          · rw [hpji, vi]
            exact inv.2 j hj hjpos hpji h0
          · by_cases hpjp : (j - 1) / 2 = (i - 1) / 2
            · rw [hpjp, vp]
              have h1 : le (val l ((j - 1) / 2)) (val l j) := inv.1 j hj hjpos hji
              rw [hpjp] at h1
              exact le_trans _ _ _ (lt_le _ _ hcmp) h1
            · rw [val_swap_other l hpji hpjp]
              exact inv.1 j hj hjpos hji
      · intro j hj hjpos hpj hppos
        rw [length_swap] at hj
        have hq1 : ((i - 1) / 2 - 1) / 2 ≠ i := by omega
        have hq2 : ((i - 1) / 2 - 1) / 2 ≠ (i - 1) / 2 := by omega
        rw [val_swap_other l hq1 hq2]
        have hparp : le (val l (((i - 1) / 2 - 1) / 2)) (val l ((i - 1) / 2)) :=
          inv.1 ((i - 1) / 2) hple hppos (by omega)
        by_cases hji : j = i
        · subst hji
          rw [vi]
          exact hparp
        · have hjp : j ≠ (i - 1) / 2 := by omega
          rw [val_swap_other l hji hjp]
          have h2 : le (val l ((j - 1) / 2)) (val l j) := inv.1 j hj hjpos hji
          rw [hpj] at h2
          exact le_trans _ _ _ hparp h2
    · intro j hj hjpos
      by_cases hji : j = i
      · subst hji
        exact (not_lt_iff_le _ _).mp hcmp
      · exact inv.1 j hj hjpos hji
    · intro j hj hjpos
      have hji : j ≠ i := by omega
      exact inv.1 j hj hjpos hji

theorem bubbleDown_isHeap : ∀ (fuel : ℕ) (l : List PriorityQueueElement) (i : ℕ),
    l.length - i ≤ fuel → DownInv l i → IsHeap (bubbleDown fuel l i) := by
  intro fuel
  induction fuel with
  | zero =>
    intro l i hfuel inv
    show IsHeap l
    intro j hj hjpos
    have : (j - 1) / 2 ≠ i := by omega
    exact inv.1 j hj hjpos this
  | succ fuel ih =>
    intro l i hfuel inv
    show IsHeap (if smallestIdx l i ≠ i then
        bubbleDown fuel (swap l i (smallestIdx l i)) (smallestIdx l i)
      else l)
    split_ifs with hne
    · rcases smallestIdx_spec l i with ⟨heq, _⟩ | ⟨_, hslen, hsgt, hschild, hscmp, hsl, hsr⟩
      · exact absurd heq hne
      · have hi : i < l.length := by omega
        have hps : (smallestIdx l i - 1) / 2 = i := by omega
        have vi : val (swap l i (smallestIdx l i)) i = val l (smallestIdx l i) :=
          val_swap_fst l hi (by omega)
        have vs : val (swap l i (smallestIdx l i)) (smallestIdx l i) = val l i :=
          val_swap_snd l hslen
        refine ih _ _ (by rw [length_swap]; omega) ?hdinv
        constructor
        · intro j hj hjpos hjps
          rw [length_swap] at hj
          by_cases hji : j = i
          · rw [hji]
            have hipos : 0 < i := by omega
            have hq1 : (i - 1) / 2 ≠ i := by omega
            have hq2 : (i - 1) / 2 ≠ smallestIdx l i := by omega
            rw [val_swap_other l hq1 hq2, vi]
            exact inv.2 (smallestIdx l i) hslen (by omega) hps hipos
          · by_cases hjs : j = smallestIdx l i
            · rw [hjs, hps, vi, vs]
              exact lt_le _ _ hscmp
            · have hvj : val (swap l i (smallestIdx l i)) j = val l j :=
                val_swap_other l hji hjs
              rw [hvj]
              by_cases hpji : (j - 1) / 2 = i
              · rw [hpji, vi]
                have hjchild : j = 2 * i + 1 ∨ j = 2 * i + 2 := by omega
                rcases hjchild with hc | hc
                · rw [hc]
                  rw [hc] at hj
                  exact hsl hj
                · rw [hc]
                  rw [hc] at hj
                  exact hsr hj
              · rw [val_swap_other l hpji hjps]
                exact inv.1 j hj hjpos hpji
        · intro j hj hjpos hpj hspos
          rw [length_swap] at hj
          rw [hps, vi]
          have hjgt : smallestIdx l i < j := by omega
          have hji : j ≠ i := by omega
          have hjs : j ≠ smallestIdx l i := by omega
          rw [val_swap_other l hji hjs]
          have hpne : (j - 1) / 2 ≠ i := by omega
          have h1 := inv.1 j hj hjpos hpne
          rw [hpj] at h1
          exact h1
    · intro j hj hjpos
      rcases smallestIdx_spec l i with ⟨_, hl1, hr1⟩ | ⟨hne2, _⟩
      · by_cases hpji : (j - 1) / 2 = i
        · rw [hpji]
          have hjchild : j = 2 * i + 1 ∨ j = 2 * i + 2 := by omega
          rcases hjchild with hc | hc
          · rw [hc]
            rw [hc] at hj
            exact hl1 hj
          · rw [hc]
            rw [hc] at hj
            exact hr1 hj
        · exact inv.1 j hj hjpos hpji
      · exact absurd hne2 (by omega)

end PriorityQueue

namespace PriorityQueue

theorem hGet_in_range (l : List PriorityQueueElement) (i : ℕ) (h : i < l.length) :
    hGet l i = l.get ⟨i, h⟩ := by
  unfold hGet
  rw [List.getD_eq_getElem _ _ h]
  rfl

theorem hGet_append_left (l : List PriorityQueueElement) (x : PriorityQueueElement)
    (i : ℕ) (h : i < l.length) : hGet (l ++ [x]) i = hGet l i := by
  unfold hGet
  rw [List.getD_eq_getElem _ _ (by simp; omega), List.getD_eq_getElem _ _ h]
  exact List.getElem_append_left h

theorem hGet_append_last (l : List PriorityQueueElement) (x : PriorityQueueElement) :
    hGet (l ++ [x]) l.length = x := by
  unfold hGet
  rw [List.getD_eq_getElem _ _ (by simp)]
  simp

theorem hGet_dropLast (l : List PriorityQueueElement) (i : ℕ) (h : i < l.length - 1) :
    hGet l.dropLast i = hGet l i := by
  unfold hGet
  rw [List.getD_eq_getElem _ _ (by simpa using h), List.getD_eq_getElem _ _ (by omega)]
  exact List.getElem_dropLast l i (by simpa using h)

theorem hGet_last_mem (l : List PriorityQueueElement) (h : 0 < l.length) :
    hGet l (l.length - 1) ∈ l := by
  rw [hGet_in_range l _ (by omega)]
  exact List.get_mem l _ _

theorem dropLast_append_hGet_last (l : List PriorityQueueElement) (h : 0 < l.length) :
    l.dropLast ++ [hGet l (l.length - 1)] = l := by
  have hne : l ≠ [] := by
    intro he
    rw [he] at h
    simp at h
  rw [hGet_in_range l _ (by omega)]
  have hgl : l.get ⟨l.length - 1, by omega⟩ = l.getLast hne := by
    rw [List.getLast_eq_getElem]
    rfl
  rw [hgl]
  exact List.dropLast_append_getLast hne

theorem val_mem_toArray (l : List PriorityQueueElement) (i : ℕ) (h : i < l.length) :
    val l i ∈ toArray l := by
  unfold val toArray
  rw [hGet_in_range l i h]
  exact List.mem_map_of_mem _ (List.get_mem l _ _)

theorem mem_toArray_iff (l : List PriorityQueueElement) (o : Order) :
    o ∈ toArray l ↔ ∃ e ∈ l, e.order = o := by
  unfold toArray
  simp

/-- A heap's root is a minimum for the comparator. -/
theorem isHeap_root_min (l : List PriorityQueueElement) (hl : IsHeap l) :
    ∀ j, j < l.length → le (val l 0) (val l j) := by
  intro j
  induction j using Nat.strong_induction_on with
  | _ j ih =>
    intro hj
    rcases Nat.eq_zero_or_pos j with h0 | h0
    · rw [h0]
      exact le_refl _
    · have hp := ih ((j - 1) / 2) (by omega) (by omega)
      exact le_trans _ _ _ hp (hl j hj h0)

/-- On a list already satisfying the heap property, `bubbleUp` does nothing. -/
theorem bubbleUp_of_isHeap (l : List PriorityQueueElement) (hl : IsHeap l) :
    ∀ (fuel i : ℕ), i < l.length → bubbleUp fuel l i = l := by
  intro fuel i hi
  cases fuel with
  | zero => rfl
  | succ fuel =>
    show (if 0 < i then
        if compare (val l i) (val l ((i - 1) / 2)) < 0 then
          bubbleUp fuel (swap l i ((i - 1) / 2)) ((i - 1) / 2)
        else l
      else l) = l
    split_ifs with h0 hcmp
    · exact absurd hcmp ((not_lt_iff_le _ _).mpr (hl i hi h0))
    · rfl
    · rfl

/-- If neither child improves on slot `i`, `bubbleDown` does nothing. -/
theorem bubbleDown_of_self (l : List PriorityQueueElement) (i : ℕ)
    (h : smallestIdx l i = i) : ∀ fuel, bubbleDown fuel l i = l := by
  intro fuel
  cases fuel with
  | zero => rfl
  | succ fuel =>
    show (if smallestIdx l i ≠ i then
        bubbleDown fuel (swap l i (smallestIdx l i)) (smallestIdx l i)
      else l) = l
    rw [if_neg (by omega)]

theorem smallestIdx_eq_self (l : List PriorityQueueElement) (i : ℕ)
    (h1 : 2 * i + 1 < l.length → ¬ compare (val l (2 * i + 1)) (val l i) < 0)
    (h2 : 2 * i + 2 < l.length → ¬ compare (val l (2 * i + 2)) (val l i) < 0) :
    smallestIdx l i = i := by
  unfold smallestIdx
  have hc1 : ¬ (2 * i + 1 < l.length ∧ compare (val l (2 * i + 1)) (val l i) < 0) := by
    rintro ⟨ha, hb⟩
    exact h1 ha hb
  rw [if_neg hc1]
  have hc2 : ¬ (2 * i + 2 < l.length ∧ compare (val l (2 * i + 2)) (val l i) < 0) := by
    rintro ⟨ha, hb⟩
    exact h2 ha hb
  rw [if_neg hc2]

/-- `enqueue` preserves the heap invariant. -/
theorem enqueue_isHeap (l : List PriorityQueueElement) (o : Order) (hl : IsHeap l) :
    IsHeap (enqueue l o) := by
  unfold enqueue
  refine bubbleUp_isHeap _ _ _ (by omega) (by simp) ?hinv
  constructor
  · intro j hj hjpos hjne
    rw [List.length_append, List.length_singleton] at hj
    have hjlt : j < l.length := by omega
    unfold val
    rw [hGet_append_left _ _ _ hjlt, hGet_append_left _ _ _ (by omega)]
    exact hl j hjlt hjpos
  · intro j hj hjpos hpj _
    rw [List.length_append, List.length_singleton] at hj
    omega

/-- `enqueue` adds exactly the new element. -/
theorem enqueue_perm (l : List PriorityQueueElement) (o : Order) :
    List.Perm (enqueue l o) (⟨o⟩ :: l) := by
  unfold enqueue
  refine (bubbleUp_perm _ _ _ (by simp)).trans ?h
  exact List.perm_append_singleton _ _

theorem enqueue_length (l : List PriorityQueueElement) (o : Order) :
    (enqueue l o).length = l.length + 1 := by
  unfold enqueue
  rw [bubbleUp_length]
  simp

end PriorityQueue

namespace PriorityQueue

theorem not_le_iff (a b : Order) : ¬ le a b ↔ compare b a < 0 := by
  rw [le_iff, lt_iff]
  omega

theorem dequeue_fst (l : List PriorityQueueElement) (h : 0 < l.length) :
    (dequeue l).1 = some (val l 0) := by
  unfold dequeue
  rw [if_neg (by omega)]
  by_cases h1 : l.length = 1
  · rw [if_pos h1]
    rfl
  · rw [if_neg h1]
    rfl

theorem dequeue_perm (l : List PriorityQueueElement) (h : 0 < l.length) :
    List.Perm (hGet l 0 :: (dequeue l).2) l := by
  unfold dequeue
  rw [if_neg (by omega)]
  by_cases h1 : l.length = 1
  · rw [if_pos h1]
    have hd : l.dropLast = [] := by
      have := List.length_dropLast l
      rw [h1] at this
      exact List.length_eq_zero.mp (by omega)
    have hl0 : l = [hGet l 0] := by
      have := dropLast_append_hGet_last l h
      rw [hd] at this
      rw [← this, h1]
      rfl
    conv_rhs => rw [hl0]
  · rw [if_neg h1]
    have h2 : 2 ≤ l.length := by omega
    refine List.Perm.trans (List.Perm.cons _ (bubbleDown_perm _ _ _)) ?hp
    have hg0 : hGet l.dropLast 0 = hGet l 0 := hGet_dropLast l 0 (by omega)
    have hp1 := set_cons_perm l.dropLast 0 (hGet l (l.length - 1)) (by simp; omega)
    rw [hg0] at hp1
    refine hp1.trans ?hp2
    refine (List.perm_append_singleton _ _).symm.trans ?hp3
    rw [dropLast_append_hGet_last l h]

theorem dequeue_length (l : List PriorityQueueElement) (h : 0 < l.length) :
    (dequeue l).2.length = l.length - 1 := by
  unfold dequeue
  rw [if_neg (by omega)]
  by_cases h1 : l.length = 1
  · rw [if_pos h1]
    simp
    omega
  · rw [if_neg h1]
    show (bubbleDown _ _ _).length = _
    rw [bubbleDown_length]
    simp

theorem dequeue_isHeap (l : List PriorityQueueElement) (hl : IsHeap l) :
    IsHeap (dequeue l).2 := by
  unfold dequeue
  by_cases h0 : l.length = 0
  · rw [if_pos h0]
    exact hl
  · rw [if_neg h0]
    by_cases h1 : l.length = 1
    · rw [if_pos h1]
      intro j hj hjpos
      simp at hj
    · rw [if_neg h1]
      show IsHeap (bubbleDown _ _ _)
      refine bubbleDown_isHeap _ _ _ (by omega) ?hinv
      constructor
      · intro j hj hjpos hpj
        have hjlen : j < l.length - 1 := by
          simpa using hj
        have hpltj : (j - 1) / 2 < j := by omega
        unfold val
        rw [hGet_set_ne _ _ _ _ (by omega), hGet_set_ne _ _ _ _ (by omega),
          hGet_dropLast _ _ hjlen, hGet_dropLast _ _ (by omega)]
        exact hl j (by omega) hjpos
      · intro j hj hjpos hpj hpos
        omega

theorem drainHeap_subset : ∀ (fuel : ℕ) (l : List PriorityQueueElement) (o : Order),
    o ∈ drainHeap fuel l → o ∈ toArray l := by
  intro fuel
  induction fuel with
  | zero => intro l o h; simp [drainHeap] at h
  | succ fuel ih =>
    intro l o h
    by_cases h0 : 0 < l.length
    · have hd : dequeue l = (some (val l 0), (dequeue l).2) := by
        rw [← dequeue_fst l h0]
      rw [drainHeap, hd] at h
      simp only [List.mem_cons] at h
      rcases h with h | h
      · rw [h]
        exact val_mem_toArray l 0 h0
      · have hmem := ih (dequeue l).2 o h
        rw [mem_toArray_iff] at hmem ⊢
        obtain ⟨e, he, heq⟩ := hmem
        exact ⟨e, (dequeue_perm l h0).mem_iff.mp (List.mem_cons_of_mem _ he), heq⟩
    · have hnil : l = [] := List.length_eq_zero.mp (by omega)
      rw [hnil] at h
      simp [drainHeap, dequeue] at h

theorem drainHeap_perm : ∀ (fuel : ℕ) (l : List PriorityQueueElement),
    l.length ≤ fuel → List.Perm (drainHeap fuel l) (toArray l) := by
  intro fuel
  induction fuel with
  | zero =>
    intro l h
    have hnil : l = [] := List.length_eq_zero.mp (by omega)
    rw [hnil]
    exact List.Perm.refl _
  | succ fuel ih =>
    intro l h
    by_cases h0 : 0 < l.length
    · have hd : dequeue l = (some (val l 0), (dequeue l).2) := by
        rw [← dequeue_fst l h0]
      rw [drainHeap, hd]
      have hlen : (dequeue l).2.length ≤ fuel := by
        rw [dequeue_length l h0]
        omega
      have htail := ih (dequeue l).2 hlen
      have hperm : List.Perm (val l 0 :: toArray (dequeue l).2) (toArray l) := by
        have := (dequeue_perm l h0).map (fun element => element.order)
        exact this
      exact (htail.cons (val l 0)).trans hperm
    · have hnil : l = [] := List.length_eq_zero.mp (by omega)
      rw [hnil]
      simp [drainHeap, dequeue, toArray]

theorem drainHeap_sorted : ∀ (fuel : ℕ) (l : List PriorityQueueElement),
    IsHeap l → List.Pairwise le (drainHeap fuel l) := by
  intro fuel
  induction fuel with
  | zero => intro l _; simp [drainHeap]
  | succ fuel ih =>
    intro l hl
    by_cases h0 : 0 < l.length
    · have hd : dequeue l = (some (val l 0), (dequeue l).2) := by
        rw [← dequeue_fst l h0]
      rw [drainHeap, hd]
      refine List.Pairwise.cons ?hhead (ih _ (dequeue_isHeap l hl))
      intro o ho
      have hmem : o ∈ toArray (dequeue l).2 := drainHeap_subset fuel _ o ho
      rw [mem_toArray_iff] at hmem
      obtain ⟨e, he, heq⟩ := hmem
      have hel : e ∈ l := (dequeue_perm l h0).mem_iff.mp (List.mem_cons_of_mem _ he)
      obtain ⟨j, hj⟩ := List.mem_iff_get.mp hel
      have : val l j = o := by
        rw [val, hGet_in_range l j j.isLt, hj, heq]
      rw [← this]
      exact isHeap_root_min l hl j j.isLt
    · have hnil : l = [] := List.length_eq_zero.mp (by omega)
      rw [hnil]
      simp [drainHeap, dequeue]

end PriorityQueue

namespace PriorityQueue

theorem dequeueById_not_found (l : List PriorityQueueElement) (id : String)
    (h : ∀ e ∈ l, ¬ e.order.id = id) : dequeueById l id = (none, l) := by
  unfold dequeueById
  have hfind : l.findIdx? (fun element => element.order.id = id) = none := by
    rw [List.findIdx?_eq_none_iff]
    intro e he
    simp [h e he]
  rw [hfind]

theorem findIdx_id_spec (l : List PriorityQueueElement) (id : String) (k : ℕ)
    (hfind : l.findIdx? (fun element => element.order.id = id) = some k) :
    k < l.length ∧ (hGet l k).order.id = id := by
  rw [List.findIdx?_eq_some_iff_getElem] at hfind
  obtain ⟨hk, hp, _⟩ := hfind
  refine ⟨hk, ?hid⟩
  rw [hGet_in_range l k hk]
  simpa using hp

theorem dequeueById_found_fst (l : List PriorityQueueElement) (id : String) (k : ℕ)
    (hfind : l.findIdx? (fun element => element.order.id = id) = some k) :
    (dequeueById l id).1 = some (val l k) := by
  unfold dequeueById
  rw [hfind]
  dsimp only
  by_cases hlast : k ≠ l.length - 1
  · rw [if_pos hlast]
    rfl
  · rw [if_neg hlast]
    rfl

theorem dequeueById_found_perm (l : List PriorityQueueElement) (id : String) (k : ℕ)
    (hfind : l.findIdx? (fun element => element.order.id = id) = some k) :
    List.Perm (hGet l k :: (dequeueById l id).2) l := by
  have hk := (findIdx_id_spec l id k hfind).1
  have h0 : 0 < l.length := by omega
  unfold dequeueById
  rw [hfind]
  dsimp only
  by_cases hlast : k ≠ l.length - 1
  · rw [if_pos hlast]
    have hklt : k < l.length - 1 := by omega
    show List.Perm (hGet l k :: bubbleUp _ (bubbleDown _ _ _) _) l
    have hbdlen : (bubbleDown (l.dropLast.set k (hGet l (l.length - 1))).length
        (l.dropLast.set k (hGet l (l.length - 1))) k).length = l.length - 1 := by
      rw [bubbleDown_length]
      simp
    refine List.Perm.trans (List.Perm.cons _ ((bubbleUp_perm _ _ _ (by omega)).trans
      (bubbleDown_perm _ _ _))) ?hp
    have hg : hGet l.dropLast k = hGet l k := hGet_dropLast l k hklt
    have hp1 := set_cons_perm l.dropLast k (hGet l (l.length - 1)) (by simp; omega)
    rw [hg] at hp1
    refine hp1.trans ?hp2
    refine (List.perm_append_singleton _ _).symm.trans ?hp3
    rw [dropLast_append_hGet_last l h0]
  · rw [if_neg hlast]
    have hke : k = l.length - 1 := by omega
    show List.Perm (hGet l k :: l.dropLast) l
    rw [hke]
    refine (List.perm_append_singleton _ _).symm.trans ?hp4
    rw [dropLast_append_hGet_last l h0]

theorem dequeueById_found_length (l : List PriorityQueueElement) (id : String) (k : ℕ)
    (hfind : l.findIdx? (fun element => element.order.id = id) = some k) :
    (dequeueById l id).2.length = l.length - 1 := by
  unfold dequeueById
  rw [hfind]
  dsimp only
  by_cases hlast : k ≠ l.length - 1
  · rw [if_pos hlast]
    show (bubbleUp _ (bubbleDown _ _ _) _).length = _
    rw [bubbleUp_length, bubbleDown_length]
    simp
  · rw [if_neg hlast]
    simp

theorem dequeueById_found_isHeap (l : List PriorityQueueElement) (id : String) (k : ℕ)
    (hl : IsHeap l)
    (hfind : l.findIdx? (fun element => element.order.id = id) = some k) :
    IsHeap (dequeueById l id).2 := by
  have hk := (findIdx_id_spec l id k hfind).1
  unfold dequeueById
  rw [hfind]
  dsimp only
  by_cases hlast : k ≠ l.length - 1
  · rw [if_pos hlast]
    have hklt : k < l.length - 1 := by omega
    have hlen2 : 2 ≤ l.length := by omega
    show IsHeap (bubbleUp _ (bubbleDown _ _ _) _)
    set heap1 := l.dropLast.set k (hGet l (l.length - 1)) with hheap1
    have h1len : heap1.length = l.length - 1 := by
      rw [hheap1]
      simp
    have hvK : val heap1 k = val l (l.length - 1) := by
      rw [hheap1]
      unfold val
      rw [hGet_set_self _ _ _ (by simp; omega)]
    have hvO : ∀ m, m ≠ k → m < l.length - 1 → val heap1 m = val l m := by
      intro m hm hmlt
      rw [hheap1]
      unfold val
      rw [hGet_set_ne _ _ _ _ (fun h => hm h.symm), hGet_dropLast _ _ hmlt]
    -- old-heap edge facts reused below
    have edge : ∀ j, j < l.length → 0 < j → le (val l ((j - 1) / 2)) (val l j) := hl
    by_cases hk0 : k = 0
    · -- removing the root: pure sift-down, then bubbleUp is the identity
      have hdinv : DownInv heap1 0 := by
        constructor
        · intro j hj hjpos hpj
          rw [h1len] at hj
          rw [hvO j (by omega) hj, hvO ((j - 1) / 2) (by omega) (by omega)]
          exact edge j (by omega) hjpos
        · intro j hj hjpos hpj h0
          omega
      have hbd : IsHeap (bubbleDown heap1.length heap1 k) := by
        rw [hk0]
        exact bubbleDown_isHeap _ _ _ (by omega) hdinv
      rw [bubbleUp_of_isHeap _ hbd _ _ (by rw [bubbleDown_length]; omega)]
      exact hbd
    · have hkpos : 0 < k := by omega
      have hpk : (k - 1) / 2 < k := by omega
      by_cases hA : le (val l ((k - 1) / 2)) (val l (l.length - 1))
      · -- replacement not above its parent: sift-down restores, sift-up is identity
        have hdinv : DownInv heap1 k := by
          constructor
          · intro j hj hjpos hpj
            rw [h1len] at hj
            by_cases hjk : j = k
            · rw [hjk, hvK, hvO ((k - 1) / 2) (by omega) (by omega)]
              exact hA
            · rw [hvO j hjk hj, hvO ((j - 1) / 2) hpj (by omega)]
              exact edge j (by omega) hjpos
          · intro j hj hjpos hpj h0
            rw [h1len] at hj
            have hjk : j ≠ k := by omega
            rw [hvO j hjk hj, hvO ((k - 1) / 2) (by omega) (by omega)]
            have e1 : le (val l ((k - 1) / 2)) (val l k) := edge k (by omega) hkpos
            have e2 : le (val l k) (val l j) := by
              have := edge j (by omega) hjpos
              rw [hpj] at this
              exact this
            exact le_trans _ _ _ e1 e2
        have hbd : IsHeap (bubbleDown heap1.length heap1 k) :=
          bubbleDown_isHeap _ _ _ (by omega) hdinv
        rw [bubbleUp_of_isHeap _ hbd _ _ (by rw [bubbleDown_length]; omega)]
        exact hbd
      · -- replacement above its parent: sift-down is the identity, sift-up restores
        have hlt : compare (val l (l.length - 1)) (val l ((k - 1) / 2)) < 0 :=
          (not_le_iff _ _).mp hA
        have hrle : ∀ j, j < l.length - 1 → (j - 1) / 2 = k → 0 < j →
            le (val l (l.length - 1)) (val l j) := by
          intro j hj hpj hjpos
          have e1 : le (val l (l.length - 1)) (val l ((k - 1) / 2)) := lt_le _ _ hlt
          have e2 : le (val l ((k - 1) / 2)) (val l k) := edge k (by omega) hkpos
          have e3 : le (val l k) (val l j) := by
            have := edge j (by omega) hjpos
            rw [hpj] at this
            exact this
          exact le_trans _ _ _ e1 (le_trans _ _ _ e2 e3)
        have hself : smallestIdx heap1 k = k := by
          refine smallestIdx_eq_self heap1 k ?h1 ?h2
          · intro hc
            rw [h1len] at hc
            rw [hvK, hvO (2 * k + 1) (by omega) hc]
            rw [not_lt_iff_le]
            exact hrle (2 * k + 1) hc (by omega) (by omega)
          · intro hc
            rw [h1len] at hc
            rw [hvK, hvO (2 * k + 2) (by omega) hc]
            rw [not_lt_iff_le]
            exact hrle (2 * k + 2) hc (by omega) (by omega)
        rw [bubbleDown_of_self heap1 k hself]
        refine bubbleUp_isHeap heap1.length heap1 k (by omega) (by omega) ?huinv
        constructor
        · intro j hj hjpos hjk
          rw [h1len] at hj
          by_cases hpjk : (j - 1) / 2 = k
          · rw [hpjk, hvK, hvO j hjk hj]
            exact hrle j hj hpjk hjpos
          · rw [hvO j hjk hj, hvO ((j - 1) / 2) hpjk (by omega)]
            exact edge j (by omega) hjpos
        · intro j hj hjpos hpj h0
          rw [h1len] at hj
          have hjk : j ≠ k := by omega
          rw [hvO j hjk hj, hvO ((k - 1) / 2) (by omega) (by omega)]
          have e1 : le (val l ((k - 1) / 2)) (val l k) := edge k (by omega) hkpos
          have e2 : le (val l k) (val l j) := by
            have := edge j (by omega) hjpos
            rw [hpj] at this
            exact this
          exact le_trans _ _ _ e1 e2
  · rw [if_neg hlast]
    intro j hj hjpos
    have hjlen : j < l.length - 1 := by simpa using hj
    unfold val
    rw [hGet_dropLast _ _ hjlen, hGet_dropLast _ _ (by omega)]
    exact hl j (by omega) hjpos

end PriorityQueue

/-! ### Geometry and planner lemmas -/

theorem calculateDistance_symm (sq : ℚ → ℚ) (a b : Point) :
    calculateDistance sq a b = calculateDistance sq b a := by
  unfold calculateDistance
  congr 1
  ring

theorem eraseIdx_indexOf_perm (l : List Order) (a : Order) (h : a ∈ l) :
    List.Perm l (a :: l.eraseIdx (l.indexOf a)) := by
  induction l with
  | nil => simp at h
  | cons b t ih =>
    by_cases hb : b = a
    · rw [hb]
      have : (a :: t).indexOf a = 0 := by
        simp [List.indexOf_cons]
      rw [this]
      exact List.Perm.refl _
    · have hmem : a ∈ t := by
        rcases List.mem_cons.mp h with h1 | h1
        · exact absurd h1.symm hb
        · exact h1
      have hidx : (b :: t).indexOf a = t.indexOf a + 1 := by
        simp [List.indexOf_cons, hb]
      rw [hidx]
      show List.Perm (b :: t) (a :: b :: t.eraseIdx (t.indexOf a))
      refine List.Perm.trans ((ih hmem).cons b) (List.Perm.swap _ _ _)

namespace ZipScheduler

theorem nearerOrder_ne_none (sq : ℚ → ℚ) (cur : Point) :
    ∀ (orders : List Order) (p : Order × ℚ),
      orders.foldl (nearerOrder sq cur) (some p) ≠ none := by
  intro orders
  induction orders with
  | nil => intro p h; exact Option.noConfusion h
  | cons x xs ih =>
    intro p
    rw [List.foldl_cons]
    show xs.foldl _ (if calculateDistance sq cur x.hospital.toPoint < p.2 then
      some (x, calculateDistance sq cur x.hospital.toPoint) else some p) ≠ none
    split_ifs with hd
    · exact ih _
    · exact ih _

theorem findNearestOrder_fold_mem (sq : ℚ → ℚ) (cur : Point) :
    ∀ (orders : List Order) (init : Option (Order × ℚ)),
      orders.foldl (nearerOrder sq cur) init = init ∨
      ∃ o ∈ orders, orders.foldl (nearerOrder sq cur) init =
        some (o, calculateDistance sq cur o.hospital.toPoint) := by
  intro orders
  induction orders with
  | nil => intro init; exact Or.inl rfl
  | cons x xs ih =>
    intro init
    rw [List.foldl_cons]
    rcases ih (nearerOrder sq cur init x) with h | ⟨o, ho, heq⟩
    · rw [h]
      cases init with
      | none => exact Or.inr ⟨x, List.mem_cons_self x xs, rfl⟩
      | some best =>
        show (nearerOrder sq cur (some best) x = some best) ∨ _
        unfold nearerOrder
        dsimp only
        by_cases hd : calculateDistance sq cur x.hospital.toPoint < best.2
        · rw [if_pos hd]
          exact Or.inr ⟨x, List.mem_cons_self x xs, rfl⟩
        · rw [if_neg hd]
          exact Or.inl rfl
    · exact Or.inr ⟨o, List.mem_cons_of_mem x ho, heq⟩

theorem findNearestOrder_some (sq : ℚ → ℚ) (cur : Point) (orders : List Order)
    (h : orders ≠ []) :
    ∃ o ∈ orders,
      findNearestOrder sq cur orders = some (o, calculateDistance sq cur o.hospital.toPoint) := by
  rcases findNearestOrder_fold_mem sq cur orders none with h1 | h1
  · exfalso
    cases orders with
    | nil => exact h rfl
    | cons x xs =>
      rw [List.foldl_cons] at h1
      exact nearerOrder_ne_none sq cur xs (x, _) h1
  · exact h1

theorem findNearestOrder_mem (sq : ℚ → ℚ) (cur : Point) (orders : List Order)
    (o : Order) (d : ℚ) (h : findNearestOrder sq cur orders = some (o, d)) :
    o ∈ orders ∧ d = calculateDistance sq cur o.hospital.toPoint := by
  rcases findNearestOrder_fold_mem sq cur orders none with h1 | ⟨b, hb, heq⟩
  · unfold findNearestOrder at h
    rw [h1] at h
    exact Option.noConfusion h
  · unfold findNearestOrder at h
    rw [h] at heq
    obtain ⟨ho, hd⟩ := Prod.mk.injEq _ _ _ _ ▸ Option.some.inj heq
    constructor
    · rw [ho]
      exact hb
    · rw [hd, ho]

end ZipScheduler

namespace ZipScheduler

theorem selectOrder_mem (sq : ℚ → ℚ) (cur : Point) (avail : List Order)
    (o : Order) (d : ℚ) (h : selectOrder sq cur avail = some (o, d)) :
    o ∈ avail ∧ d = calculateDistance sq cur o.hospital.toPoint := by
  unfold selectOrder at h
  dsimp only at h
  rcases hem : findNearestOrder sq cur
      (avail.filter (fun o => o.priority = Priority.Emergency)) with _ | nearest
  · rw [hem] at h
    have := findNearestOrder_mem sq cur _ o d h
    exact ⟨List.mem_of_mem_filter this.1, this.2⟩
  · rw [hem] at h
    obtain rfl : nearest = (o, d) := Option.some.inj h
    have := findNearestOrder_mem sq cur _ o d hem
    exact ⟨List.mem_of_mem_filter this.1, this.2⟩

theorem selectOrder_of_nonempty (sq : ℚ → ℚ) (cur : Point) (avail : List Order)
    (h : avail ≠ []) : selectOrder sq cur avail ≠ none := by
  unfold selectOrder
  dsimp only
  rcases hem : findNearestOrder sq cur
      (avail.filter (fun o => o.priority = Priority.Emergency)) with _ | nearest
  · by_cases hne : (avail.filter (fun o => ¬ o.priority = Priority.Emergency)) = []
    · exfalso
      -- both sub-pools empty would make the snapshot empty
      have hee : (avail.filter (fun o => o.priority = Priority.Emergency)) = [] := by
        by_contra hc
        obtain ⟨e, he, heq⟩ := findNearestOrder_some sq cur _ hc
        rw [hem] at heq
        exact Option.noConfusion heq
      cases avail with
      | nil => exact h rfl
      | cons x xs =>
        by_cases hx : x.priority = Priority.Emergency
        · have : x ∈ List.filter (fun o => decide (o.priority = Priority.Emergency)) (x :: xs) := by
            simp [List.mem_filter, hx]
          rw [hee] at this
          simp at this
        · have : x ∈ List.filter (fun o => decide (¬ o.priority = Priority.Emergency)) (x :: xs) := by
            simp [List.mem_filter, hx]
          rw [hne] at this
          simp at this
    · obtain ⟨e, he, heq⟩ := findNearestOrder_some sq cur _ hne
      rw [heq]
      exact fun hcon => Option.noConfusion hcon
  · exact fun hcon => Option.noConfusion hcon

theorem selectOrder_emergency (sq : ℚ → ℚ) (cur : Point) (avail : List Order)
    (e0 : Order) (he0 : e0 ∈ avail) (hp0 : e0.priority = Priority.Emergency) :
    ∃ o d, selectOrder sq cur avail = some (o, d) ∧ o.priority = Priority.Emergency ∧
      o ∈ avail ∧ d = calculateDistance sq cur o.hospital.toPoint := by
  unfold selectOrder
  dsimp only
  have hne : (avail.filter (fun o => o.priority = Priority.Emergency)) ≠ [] := by
    intro hc
    have : e0 ∈ avail.filter (fun o => o.priority = Priority.Emergency) := by
      simp [List.mem_filter, he0, hp0]
    rw [hc] at this
    simp at this
  obtain ⟨o, ho, heq⟩ := findNearestOrder_some sq cur _ hne
  rw [heq]
  have hop : o.priority = Priority.Emergency := by
    have := List.mem_filter.mp ho
    simpa using this.2
  exact ⟨o, _, rfl, hop, List.mem_of_mem_filter ho, rfl⟩

end ZipScheduler

namespace ZipScheduler

theorem planLoop_exit (sq : ℚ → ℚ) (maxP : ℕ) (range : ℚ) (fuel : ℕ)
    (acc : List Order) (td : ℚ) (cur : Point) (avail : List Order)
    (h : ¬ (acc.length < maxP ∧ 0 < avail.length)) :
    planLoop sq maxP range (fuel + 1) acc td cur avail = (acc, td, cur, []) := by
  simp only [planLoop]
  rw [if_neg h]

theorem planLoop_sel_none (sq : ℚ → ℚ) (maxP : ℕ) (range : ℚ) (fuel : ℕ)
    (acc : List Order) (td : ℚ) (cur : Point) (avail : List Order)
    (h : acc.length < maxP ∧ 0 < avail.length)
    (hsel : selectOrder sq cur avail = none) :
    planLoop sq maxP range (fuel + 1) acc td cur avail = (acc, td, cur, []) := by
  simp only [planLoop]
  rw [if_pos h, hsel]

theorem planLoop_accept (sq : ℚ → ℚ) (maxP : ℕ) (range : ℚ) (fuel : ℕ)
    (acc : List Order) (td : ℚ) (cur : Point) (avail : List Order)
    (o : Order) (d : ℚ)
    (h : acc.length < maxP ∧ 0 < avail.length)
    (hsel : selectOrder sq cur avail = some (o, d))
    (hfit : td + d + calculateDistance sq o.hospital.toPoint nestPoint ≤ range) :
    planLoop sq maxP range (fuel + 1) acc td cur avail =
      planLoop sq maxP range fuel (acc ++ [o]) (td + d) o.hospital.toPoint
        (avail.eraseIdx (avail.indexOf o)) := by
  simp only [planLoop]
  rw [if_pos h, hsel]
  dsimp only
  rw [if_pos hfit]

theorem planLoop_reject (sq : ℚ → ℚ) (maxP : ℕ) (range : ℚ) (fuel : ℕ)
    (acc : List Order) (td : ℚ) (cur : Point) (avail : List Order)
    (o : Order) (d : ℚ)
    (h : acc.length < maxP ∧ 0 < avail.length)
    (hsel : selectOrder sq cur avail = some (o, d))
    (hnofit : ¬ td + d + calculateDistance sq o.hospital.toPoint nestPoint ≤ range) :
    planLoop sq maxP range (fuel + 1) acc td cur avail =
      ((planLoop sq maxP range fuel acc td cur (avail.eraseIdx (avail.indexOf o))).1,
       (planLoop sq maxP range fuel acc td cur (avail.eraseIdx (avail.indexOf o))).2.1,
       (planLoop sq maxP range fuel acc td cur (avail.eraseIdx (avail.indexOf o))).2.2.1,
       LogEvent.verboseOrderSkippedRange o.id ::
         (planLoop sq maxP range fuel acc td cur (avail.eraseIdx (avail.indexOf o))).2.2.2) := by
  simp only [planLoop]
  rw [if_pos h, hsel]
  dsimp only
  rw [if_neg hnofit]

theorem planLoop_prefix (sq : ℚ → ℚ) (maxP : ℕ) (range : ℚ) :
    ∀ (fuel : ℕ) (acc : List Order) (td : ℚ) (cur : Point) (avail : List Order),
      ∃ suffix, (planLoop sq maxP range fuel acc td cur avail).1 = acc ++ suffix := by
  intro fuel
  induction fuel with
  | zero => intro acc td cur avail; exact ⟨[], by simp [planLoop]⟩
  | succ fuel ih =>
    intro acc td cur avail
    by_cases hg : acc.length < maxP ∧ 0 < avail.length
    · rcases hsel : selectOrder sq cur avail with _ | ⟨o, d⟩
      · rw [planLoop_sel_none sq maxP range fuel acc td cur avail hg hsel]
        exact ⟨[], by simp⟩
      · by_cases hfit : td + d + calculateDistance sq o.hospital.toPoint nestPoint ≤ range
        · rw [planLoop_accept sq maxP range fuel acc td cur avail o d hg hsel hfit]
          obtain ⟨suffix, hs⟩ := ih (acc ++ [o]) (td + d) o.hospital.toPoint
            (avail.eraseIdx (avail.indexOf o))
          exact ⟨o :: suffix, by rw [hs]; simp⟩
        · rw [planLoop_reject sq maxP range fuel acc td cur avail o d hg hsel hfit]
          exact ih acc td cur (avail.eraseIdx (avail.indexOf o))
    · rw [planLoop_exit sq maxP range fuel acc td cur avail hg]
      exact ⟨[], by simp⟩

theorem planLoop_subperm (sq : ℚ → ℚ) (maxP : ℕ) (range : ℚ) :
    ∀ (fuel : ℕ) (acc : List Order) (td : ℚ) (cur : Point) (avail : List Order),
      ((planLoop sq maxP range fuel acc td cur avail).1).Subperm (acc ++ avail) := by
  intro fuel
  induction fuel with
  | zero =>
    intro acc td cur avail
    exact (List.sublist_append_left acc avail).subperm
  | succ fuel ih =>
    intro acc td cur avail
    by_cases hg : acc.length < maxP ∧ 0 < avail.length
    · rcases hsel : selectOrder sq cur avail with _ | ⟨o, d⟩
      · rw [planLoop_sel_none sq maxP range fuel acc td cur avail hg hsel]
        exact (List.sublist_append_left acc avail).subperm
      · have homem : o ∈ avail := (selectOrder_mem sq cur avail o d hsel).1
        by_cases hfit : td + d + calculateDistance sq o.hospital.toPoint nestPoint ≤ range
        · rw [planLoop_accept sq maxP range fuel acc td cur avail o d hg hsel hfit]
          have h1 : List.Perm avail (o :: avail.eraseIdx (avail.indexOf o)) :=
            eraseIdx_indexOf_perm avail o homem
          have h2 : List.Perm (acc ++ [o] ++ avail.eraseIdx (avail.indexOf o))
              (acc ++ avail) := by
            have h3 : acc ++ [o] ++ avail.eraseIdx (avail.indexOf o) =
                acc ++ (o :: avail.eraseIdx (avail.indexOf o)) := by simp
            rw [h3]
            exact List.Perm.append_left acc h1.symm
          exact (ih _ _ _ _).trans h2.subperm
        · rw [planLoop_reject sq maxP range fuel acc td cur avail o d hg hsel hfit]
          refine (ih _ _ _ _).trans ?hsub
          exact ((List.eraseIdx_sublist avail (avail.indexOf o)).append_left acc).subperm
    · rw [planLoop_exit sq maxP range fuel acc td cur avail hg]
      exact (List.sublist_append_left acc avail).subperm

theorem planLoop_length (sq : ℚ → ℚ) (maxP : ℕ) (range : ℚ) :
    ∀ (fuel : ℕ) (acc : List Order) (td : ℚ) (cur : Point) (avail : List Order),
      acc.length ≤ maxP → ((planLoop sq maxP range fuel acc td cur avail).1).length ≤ maxP := by
  intro fuel
  induction fuel with
  | zero => intro acc td cur avail h; simpa [planLoop] using h
  | succ fuel ih =>
    intro acc td cur avail h
    by_cases hg : acc.length < maxP ∧ 0 < avail.length
    · rcases hsel : selectOrder sq cur avail with _ | ⟨o, d⟩
      · rw [planLoop_sel_none sq maxP range fuel acc td cur avail hg hsel]
        exact h
      · by_cases hfit : td + d + calculateDistance sq o.hospital.toPoint nestPoint ≤ range
        · rw [planLoop_accept sq maxP range fuel acc td cur avail o d hg hsel hfit]
          refine ih _ _ _ _ ?hlen
          rw [List.length_append, List.length_singleton]
          omega
        · rw [planLoop_reject sq maxP range fuel acc td cur avail o d hg hsel hfit]
          exact ih _ _ _ _ h
    · rw [planLoop_exit sq maxP range fuel acc td cur avail hg]
      exact h

theorem planLoop_dist (sq : ℚ → ℚ) (maxP : ℕ) (range : ℚ) :
    ∀ (fuel : ℕ) (acc : List Order) (td : ℚ) (cur : Point) (avail : List Order),
      (0 < acc.length → td + calculateDistance sq cur nestPoint ≤ range) →
      (0 < ((planLoop sq maxP range fuel acc td cur avail).1).length →
        (planLoop sq maxP range fuel acc td cur avail).2.1 +
          calculateDistance sq (planLoop sq maxP range fuel acc td cur avail).2.2.1
            nestPoint ≤ range) := by
  intro fuel
  induction fuel with
  | zero => intro acc td cur avail h; simpa [planLoop] using h
  | succ fuel ih =>
    intro acc td cur avail h
    by_cases hg : acc.length < maxP ∧ 0 < avail.length
    · rcases hsel : selectOrder sq cur avail with _ | ⟨o, d⟩
      · rw [planLoop_sel_none sq maxP range fuel acc td cur avail hg hsel]
        exact h
      · by_cases hfit : td + d + calculateDistance sq o.hospital.toPoint nestPoint ≤ range
        · rw [planLoop_accept sq maxP range fuel acc td cur avail o d hg hsel hfit]
          refine ih _ _ _ _ ?hstep
          intro _
          exact hfit
        · rw [planLoop_reject sq maxP range fuel acc td cur avail o d hg hsel hfit]
          exact ih _ _ _ _ h
    · rw [planLoop_exit sq maxP range fuel acc td cur avail hg]
      exact h

theorem planLoop_nil_td (sq : ℚ → ℚ) (maxP : ℕ) (range : ℚ) :
    ∀ (fuel : ℕ) (td : ℚ) (cur : Point) (avail : List Order),
      (planLoop sq maxP range fuel [] td cur avail).1 = [] →
      (planLoop sq maxP range fuel [] td cur avail).2.1 = td := by
  intro fuel
  induction fuel with
  | zero => intro td cur avail _; simp [planLoop]
  | succ fuel ih =>
    intro td cur avail hnil
    by_cases hg : ([] : List Order).length < maxP ∧ 0 < avail.length
    · rcases hsel : selectOrder sq cur avail with _ | ⟨o, d⟩
      · rw [planLoop_sel_none sq maxP range fuel [] td cur avail hg hsel]
      · by_cases hfit : td + d + calculateDistance sq o.hospital.toPoint nestPoint ≤ range
        · exfalso
          rw [planLoop_accept sq maxP range fuel [] td cur avail o d hg hsel hfit] at hnil
          obtain ⟨suffix, hs⟩ := planLoop_prefix sq maxP range fuel ([] ++ [o]) (td + d)
            o.hospital.toPoint (avail.eraseIdx (avail.indexOf o))
          rw [hs] at hnil
          simp at hnil
        · rw [planLoop_reject sq maxP range fuel [] td cur avail o d hg hsel hfit] at hnil ⊢
          exact ih _ _ _ hnil
    · rw [planLoop_exit sq maxP range fuel [] td cur avail hg]

theorem planLoop_emergency_head (sq : ℚ → ℚ) (maxP : ℕ) (range : ℚ)
    (fuel : ℕ) (avail : List Order) (hmax : 0 < maxP) (hfuel : 0 < fuel)
    (he : ∃ e ∈ avail, e.priority = Priority.Emergency)
    (hadm : ∀ o ∈ avail, 2 * calculateDistance sq nestPoint o.hospital.toPoint ≤ range) :
    ∃ o rest, (planLoop sq maxP range fuel [] 0 nestPoint avail).1 = o :: rest ∧
      o.priority = Priority.Emergency := by
  obtain ⟨e0, he0, hp0⟩ := he
  obtain ⟨fuel1, rfl⟩ : ∃ fuel1, fuel = fuel1 + 1 := ⟨fuel - 1, by omega⟩
  have hg : ([] : List Order).length < maxP ∧ 0 < avail.length := by
    constructor
    · simpa using hmax
    · exact List.length_pos.mpr (List.ne_nil_of_mem he0)
  obtain ⟨o, d, hsel, hoem, homem, hd⟩ := selectOrder_emergency sq nestPoint avail e0 he0 hp0
  have hfit : (0 : ℚ) + d + calculateDistance sq o.hospital.toPoint nestPoint ≤ range := by
    have hsymm : calculateDistance sq o.hospital.toPoint nestPoint =
        calculateDistance sq nestPoint o.hospital.toPoint := calculateDistance_symm sq _ _
    have := hadm o homem
    rw [hsymm, hd]
    linarith
  rw [planLoop_accept sq maxP range fuel1 [] 0 nestPoint avail o d hg hsel hfit]
  obtain ⟨suffix, hs⟩ := planLoop_prefix sq maxP range fuel1 ([] ++ [o]) (0 + d)
    o.hospital.toPoint (avail.eraseIdx (avail.indexOf o))
  refine ⟨o, suffix, ?heq, hoem⟩
  rw [hs]
  simp

end ZipScheduler

namespace PriorityQueue

theorem dequeueById_subset (l : List PriorityQueueElement) (id : String) :
    ∀ e ∈ (dequeueById l id).2, e ∈ l := by
  intro e he
  rcases hfind : l.findIdx? (fun element => element.order.id = id) with _ | k
  · unfold dequeueById at he
    rw [hfind] at he
    exact he
  · exact (dequeueById_found_perm l id k hfind).mem_iff.mp (List.mem_cons_of_mem _ he)

theorem dequeueById_isHeap (l : List PriorityQueueElement) (id : String) (hl : IsHeap l) :
    IsHeap (dequeueById l id).2 := by
  rcases hfind : l.findIdx? (fun element => element.order.id = id) with _ | k
  · unfold dequeueById
    rw [hfind]
    exact hl
  · exact dequeueById_found_isHeap l id k hl hfind

end PriorityQueue

theorem subperm_map {α β : Type} (f : α → β) {l m : List α} (h : l.Subperm m) :
    (l.map f).Subperm (m.map f) := by
  obtain ⟨w, hw1, hw2⟩ := h
  exact ⟨w.map f, hw1.map f, hw2.map f⟩

theorem subperm_nodup {α : Type} {l m : List α} (h : l.Subperm m) (hm : m.Nodup) :
    l.Nodup := by
  obtain ⟨w, hw1, hw2⟩ := h
  exact hw1.nodup_iff.mp (hw2.nodup hm)

namespace ZipScheduler

theorem planFlight_snd (sq : ℚ → ℚ) (s : ZipScheduler) : (planFlight sq s).2 = s := rfl

theorem planFlight_orders (sq : ℚ → ℚ) (s : ZipScheduler) :
    (planFlight sq s).1.1 = (planLoop sq s.maxPackagesPerZip s.zipMaxCumulativeRangeM
      (getUnfulfilledOrders s).length [] 0 nestPoint (getUnfulfilledOrders s)).1 := rfl

theorem planFlight_subperm (sq : ℚ → ℚ) (s : ZipScheduler) :
    ((planFlight sq s).1.1).Subperm (getUnfulfilledOrders s) := by
  rw [planFlight_orders]
  have := planLoop_subperm sq s.maxPackagesPerZip s.zipMaxCumulativeRangeM
    (getUnfulfilledOrders s).length [] 0 nestPoint (getUnfulfilledOrders s)
  simpa using this

theorem planFlight_length (sq : ℚ → ℚ) (s : ZipScheduler) :
    ((planFlight sq s).1.1).length ≤ s.maxPackagesPerZip := by
  rw [planFlight_orders]
  exact planLoop_length sq _ _ _ [] 0 nestPoint _ (by simp)

theorem planFlight_range (sq : ℚ → ℚ) (s : ZipScheduler)
    (h : 0 < ((planFlight sq s).1.1).length) :
    (planFlight sq s).1.2.1 ≤ s.zipMaxCumulativeRangeM := by
  have hd := planLoop_dist sq s.maxPackagesPerZip s.zipMaxCumulativeRangeM
    (getUnfulfilledOrders s).length [] 0 nestPoint (getUnfulfilledOrders s)
    (by intro hc; simp at hc)
  rw [planFlight_orders] at h
  show (if 0 < ((planLoop sq s.maxPackagesPerZip s.zipMaxCumulativeRangeM
      (getUnfulfilledOrders s).length [] 0 nestPoint (getUnfulfilledOrders s)).1).length then
      _ + calculateDistance sq _ nestPoint else _) ≤ s.zipMaxCumulativeRangeM
  rw [if_pos h]
  exact hd h

theorem planFlight_empty_td (sq : ℚ → ℚ) (s : ZipScheduler)
    (h : (planFlight sq s).1.1 = []) : (planFlight sq s).1.2.1 = 0 := by
  rw [planFlight_orders] at h
  show (if 0 < ((planLoop sq s.maxPackagesPerZip s.zipMaxCumulativeRangeM
      (getUnfulfilledOrders s).length [] 0 nestPoint (getUnfulfilledOrders s)).1).length then
      _ + calculateDistance sq _ nestPoint else
      (planLoop sq s.maxPackagesPerZip s.zipMaxCumulativeRangeM
        (getUnfulfilledOrders s).length [] 0 nestPoint (getUnfulfilledOrders s)).2.1) = 0
  rw [if_neg (by rw [h]; simp)]
  exact planLoop_nil_td sq _ _ _ 0 nestPoint _ h

theorem countByPriority_ne_zero (s : ZipScheduler) (p : Priority) :
    countByPriority s p ≠ 0 ↔
      ∃ o ∈ PriorityQueue.toArray s.unfulfilledOrders, o.priority = p := by
  unfold countByPriority
  constructor
  · intro h
    have hne : (PriorityQueue.toArray s.unfulfilledOrders).filter
        (fun o => o.priority = p) ≠ [] := by
      intro hc
      rw [hc] at h
      simp at h
    obtain ⟨x, hx⟩ := List.exists_mem_of_ne_nil _ hne
    have := List.mem_filter.mp hx
    exact ⟨x, this.1, by simpa using this.2⟩
  · intro ⟨o, ho, hp⟩
    have : o ∈ (PriorityQueue.toArray s.unfulfilledOrders).filter
        (fun o => o.priority = p) := List.mem_filter.mpr ⟨ho, by simpa using hp⟩
    intro hc
    rw [List.length_eq_zero] at hc
    rw [hc] at this
    simp at this

theorem planFlight_emergency_head (sq : ℚ → ℚ) (s : ZipScheduler)
    (hadm : AdmissibleQueue sq s)
    (hne : (planFlight sq s).1.1 ≠ [])
    (hem : countByPriority s Priority.Emergency ≠ 0) :
    ∃ o rest, (planFlight sq s).1.1 = o :: rest ∧ o.priority = Priority.Emergency := by
  obtain ⟨e, he, hep⟩ := (countByPriority_ne_zero s Priority.Emergency).mp hem
  have havne : getUnfulfilledOrders s ≠ [] := List.ne_nil_of_mem he
  have hfuel : 0 < (getUnfulfilledOrders s).length := List.length_pos.mpr havne
  have hmax : 0 < s.maxPackagesPerZip := by
    by_contra hc
    apply hne
    rw [planFlight_orders]
    obtain ⟨fuel1, hf⟩ : ∃ fuel1, (getUnfulfilledOrders s).length = fuel1 + 1 :=
      ⟨(getUnfulfilledOrders s).length - 1, by omega⟩
    rw [hf, planLoop_exit sq _ _ _ [] 0 nestPoint _ (by simp; omega)]
  have hadm2 : ∀ o ∈ getUnfulfilledOrders s,
      2 * calculateDistance sq nestPoint o.hospital.toPoint ≤ s.zipMaxCumulativeRangeM := by
    intro o ho
    obtain ⟨elem, helem, heq⟩ :=
      (PriorityQueue.mem_toArray_iff s.unfulfilledOrders o).mp ho
    have := hadm elem helem
    rw [heq] at this
    exact this
  obtain ⟨o, rest, hor, hop⟩ := planLoop_emergency_head sq s.maxPackagesPerZip
    s.zipMaxCumulativeRangeM (getUnfulfilledOrders s).length (getUnfulfilledOrders s)
    hmax hfuel ⟨e, he, hep⟩ hadm2
  refine ⟨o, rest, ?heq, hop⟩
  rw [planFlight_orders]
  exact hor

end ZipScheduler

namespace ZipScheduler

theorem dispatch_flight (s : ZipScheduler) (t : ℚ) (fo : List Order) (td : ℚ) :
    (dispatchPlannedFlight s t fo td).1 = mkFlight t fo td := rfl

theorem dispatch_active (s : ZipScheduler) (t : ℚ) (fo : List Order) (td : ℚ) :
    (dispatchPlannedFlight s t fo td).2.1.activeFlights =
      s.activeFlights ++ [⟨calculateReturnTime s t td, mkFlight t fo td⟩] := rfl

theorem dispatch_config (s : ZipScheduler) (t : ℚ) (fo : List Order) (td : ℚ) :
    (dispatchPlannedFlight s t fo td).2.1.numZips = s.numZips ∧
    (dispatchPlannedFlight s t fo td).2.1.maxPackagesPerZip = s.maxPackagesPerZip ∧
    (dispatchPlannedFlight s t fo td).2.1.zipSpeedMps = s.zipSpeedMps ∧
    (dispatchPlannedFlight s t fo td).2.1.zipMaxCumulativeRangeM = s.zipMaxCumulativeRangeM :=
  ⟨rfl, rfl, rfl, rfl⟩

theorem dequeueStep_queue (acc : List PriorityQueueElement × List LogEvent)
    (order : Order) :
    (dequeueStep acc order).1 = (PriorityQueue.dequeueById acc.1 order.id).2 := by
  unfold dequeueStep
  dsimp only
  split
  · rfl
  · rfl

theorem dequeueStep_expand (q : List PriorityQueueElement) (logs : List LogEvent)
    (order : Order) :
    dequeueStep (q, logs) order =
      ((PriorityQueue.dequeueById q order.id).2, (dequeueStep (q, logs) order).2) :=
  Prod.ext_iff.mpr ⟨dequeueStep_queue (q, logs) order, rfl⟩

theorem dequeueFold_subset :
    ∀ (os : List Order) (q : List PriorityQueueElement) (logs : List LogEvent),
      ∀ e ∈ (os.foldl dequeueStep (q, logs)).1, e ∈ q := by
  intro os
  induction os with
  | nil => intro q logs e he; exact he
  | cons o os ih =>
    intro q logs e he
    rw [List.foldl_cons, dequeueStep_expand q logs o] at he
    exact PriorityQueue.dequeueById_subset q o.id e (ih _ _ e he)

theorem dequeueFold_isHeap :
    ∀ (os : List Order) (q : List PriorityQueueElement) (logs : List LogEvent),
      PriorityQueue.IsHeap q →
      PriorityQueue.IsHeap (os.foldl dequeueStep (q, logs)).1 := by
  intro os
  induction os with
  | nil => intro q logs hq; exact hq
  | cons o os ih =>
    intro q logs hq
    rw [List.foldl_cons, dequeueStep_expand q logs o]
    exact ih _ _ (PriorityQueue.dequeueById_isHeap q o.id hq)

theorem dispatch_queue_subset (s : ZipScheduler) (t : ℚ) (fo : List Order) (td : ℚ) :
    ∀ e ∈ (dispatchPlannedFlight s t fo td).2.1.unfulfilledOrders,
      e ∈ s.unfulfilledOrders := by
  intro e he
  exact dequeueFold_subset fo s.unfulfilledOrders [] e he

theorem dispatch_isHeap (s : ZipScheduler) (t : ℚ) (fo : List Order) (td : ℚ)
    (hq : PriorityQueue.IsHeap s.unfulfilledOrders) :
    PriorityQueue.IsHeap (dispatchPlannedFlight s t fo td).2.1.unfulfilledOrders := by
  exact dequeueFold_isHeap fo s.unfulfilledOrders [] hq

theorem dispatch_admissible (sq : ℚ → ℚ) (s : ZipScheduler) (t : ℚ) (fo : List Order)
    (td : ℚ) (hadm : AdmissibleQueue sq s) :
    AdmissibleQueue sq (dispatchPlannedFlight s t fo td).2.1 := by
  intro e he
  rw [(dispatch_config s t fo td).2.2.2]
  exact hadm e (dispatch_queue_subset s t fo td e he)

end ZipScheduler

namespace ZipScheduler

theorem launchLoop_stop (sq : ℚ → ℚ) (t : ℚ) (fuel : ℕ) (avail : ℤ) (s : ZipScheduler)
    (h : ¬ (0 < avail ∧ ¬ PriorityQueue.isEmpty s.unfulfilledOrders)) :
    launchLoop sq t (fuel + 1) avail s = ([], s, []) := by
  simp only [launchLoop]
  rw [if_neg h]

theorem launchLoop_noplan (sq : ℚ → ℚ) (t : ℚ) (fuel : ℕ) (avail : ℤ) (s : ZipScheduler)
    (hg : 0 < avail ∧ ¬ PriorityQueue.isEmpty s.unfulfilledOrders)
    (h1 : ((planFlight sq s).1.1).length = 0) :
    launchLoop sq t (fuel + 1) avail s = ([], s, []) := by
  simp only [launchLoop]
  rw [if_pos hg, if_pos h1]

theorem launchLoop_skip_emergency (sq : ℚ → ℚ) (t : ℚ) (fuel : ℕ) (avail : ℤ)
    (s : ZipScheduler)
    (hg : 0 < avail ∧ ¬ PriorityQueue.isEmpty s.unfulfilledOrders)
    (h1 : ¬ ((planFlight sq s).1.1).length = 0)
    (h2 : countByPriority s Priority.Emergency ≠ 0 ∧ avail < 1) :
    launchLoop sq t (fuel + 1) avail s = ([], s, [LogEvent.errorSkipEmergencyFlight]) := by
  simp only [launchLoop]
  rw [if_pos hg, if_neg h1, if_pos h2]

theorem launchLoop_skip_resupply (sq : ℚ → ℚ) (t : ℚ) (fuel : ℕ) (avail : ℤ)
    (s : ZipScheduler)
    (hg : 0 < avail ∧ ¬ PriorityQueue.isEmpty s.unfulfilledOrders)
    (h1 : ¬ ((planFlight sq s).1.1).length = 0)
    (h2 : ¬ (countByPriority s Priority.Emergency ≠ 0 ∧ avail < 1))
    (h3 : countByPriority s Priority.Emergency = 0 ∧ avail < RESERVED_EMERGENCY_ZIPS) :
    launchLoop sq t (fuel + 1) avail s = ([], s, [LogEvent.verboseSkipResupplyFlight]) := by
  simp only [launchLoop]
  rw [if_pos hg, if_neg h1, if_neg h2, if_pos h3]

theorem launchLoop_launch (sq : ℚ → ℚ) (t : ℚ) (fuel : ℕ) (avail : ℤ) (s : ZipScheduler)
    (hg : 0 < avail ∧ ¬ PriorityQueue.isEmpty s.unfulfilledOrders)
    (h1 : ¬ ((planFlight sq s).1.1).length = 0)
    (h2 : ¬ (countByPriority s Priority.Emergency ≠ 0 ∧ avail < 1))
    (h3 : ¬ (countByPriority s Priority.Emergency = 0 ∧ avail < RESERVED_EMERGENCY_ZIPS)) :
    launchLoop sq t (fuel + 1) avail s =
      ((dispatchPlannedFlight s t (planFlight sq s).1.1 (planFlight sq s).1.2.1).1 ::
         (launchLoop sq t fuel (avail - 1)
           (dispatchPlannedFlight s t (planFlight sq s).1.1 (planFlight sq s).1.2.1).2.1).1,
       (launchLoop sq t fuel (avail - 1)
         (dispatchPlannedFlight s t (planFlight sq s).1.1 (planFlight sq s).1.2.1).2.1).2.1,
       (dispatchPlannedFlight s t (planFlight sq s).1.1 (planFlight sq s).1.2.1).2.2 ++
         (launchLoop sq t fuel (avail - 1)
           (dispatchPlannedFlight s t (planFlight sq s).1.1 (planFlight sq s).1.2.1).2.1).2.2) := by
  simp only [launchLoop]
  rw [if_pos hg, if_neg h1, if_neg h2, if_neg h3]

end ZipScheduler

namespace ZipScheduler

/-- Core of the reservation invariant: every Resupply-only flight in the
dispatch loop's output is launched at a moment when the available-Zip count
(`avail` minus the number of flights already launched this call) is at least
the reserved emergency count. -/
theorem launchLoop_resupply_reserved (sq : ℚ → ℚ) (t : ℚ) :
    ∀ (fuel : ℕ) (avail : ℤ) (s : ZipScheduler), AdmissibleQueue sq s →
      ∀ i, i < ((launchLoop sq t fuel avail s).1).length →
        (∀ o ∈ ((launchLoop sq t fuel avail s).1.getD i default).orders,
          o.priority = Priority.Resupply) →
        RESERVED_EMERGENCY_ZIPS ≤ avail - i := by
  intro fuel
  induction fuel with
  | zero =>
    intro avail s _ i hi _
    simp [launchLoop] at hi
  | succ fuel ih =>
    intro avail s hadm i hi hres
    by_cases hg : 0 < avail ∧ ¬ PriorityQueue.isEmpty s.unfulfilledOrders
    · by_cases h1 : ((planFlight sq s).1.1).length = 0
      · rw [launchLoop_noplan sq t fuel avail s hg h1] at hi
        simp at hi
      · by_cases h2 : countByPriority s Priority.Emergency ≠ 0 ∧ avail < 1
        · rw [launchLoop_skip_emergency sq t fuel avail s hg h1 h2] at hi
          simp at hi
        · by_cases h3 : countByPriority s Priority.Emergency = 0 ∧
              avail < RESERVED_EMERGENCY_ZIPS
          · rw [launchLoop_skip_resupply sq t fuel avail s hg h1 h2 h3] at hi
            simp at hi
          · rw [launchLoop_launch sq t fuel avail s hg h1 h2 h3] at hi hres
            cases i with
            | zero =>
              have hem : countByPriority s Priority.Emergency = 0 := by
                by_contra hem
                obtain ⟨o, rest, hor, hop⟩ :=
                  planFlight_emergency_head sq s hadm
                    (fun hc => h1 (by rw [hc]; rfl)) hem
                have ho : o ∈ ((dispatchPlannedFlight s t (planFlight sq s).1.1
                    (planFlight sq s).1.2.1).1).orders := by
                  rw [dispatch_flight]
                  show o ∈ (planFlight sq s).1.1
                  rw [hor]
                  exact List.mem_cons_self o rest
                have := hres o (by simpa using ho)
                rw [hop] at this
                exact Priority.noConfusion this
              have : ¬ avail < RESERVED_EMERGENCY_ZIPS := fun hc => h3 ⟨hem, hc⟩
              omega
            | succ i1 =>
              have hi1 : i1 < ((launchLoop sq t fuel (avail - 1)
                  (dispatchPlannedFlight s t (planFlight sq s).1.1
                    (planFlight sq s).1.2.1).2.1).1).length := by
                simpa using hi
              have hres1 := hres
              have hadm1 : AdmissibleQueue sq (dispatchPlannedFlight s t
                  (planFlight sq s).1.1 (planFlight sq s).1.2.1).2.1 :=
                dispatch_admissible sq s t _ _ hadm
              have := ih (avail - 1) _ hadm1 i1 hi1 (by
                intro o ho
                exact hres1 o (by simpa using ho))
              push_cast at this ⊢
              omega
    · rw [launchLoop_stop sq t fuel avail s hg] at hi
      simp at hi

/-- Every order of every flight launched by the dispatch loop satisfies the
admission bound (its solo round trip fits in the configured range). -/
theorem launchLoop_orders_admissible (sq : ℚ → ℚ) (t : ℚ) :
    ∀ (fuel : ℕ) (avail : ℤ) (s : ZipScheduler), AdmissibleQueue sq s →
      ∀ f ∈ (launchLoop sq t fuel avail s).1, ∀ o ∈ f.orders,
        2 * calculateDistance sq nestPoint o.hospital.toPoint ≤ s.zipMaxCumulativeRangeM := by
  intro fuel
  induction fuel with
  | zero =>
    intro avail s _ f hf
    simp [launchLoop] at hf
  | succ fuel ih =>
    intro avail s hadm f hf o ho
    by_cases hg : 0 < avail ∧ ¬ PriorityQueue.isEmpty s.unfulfilledOrders
    · by_cases h1 : ((planFlight sq s).1.1).length = 0
      · rw [launchLoop_noplan sq t fuel avail s hg h1] at hf
        simp at hf
      · by_cases h2 : countByPriority s Priority.Emergency ≠ 0 ∧ avail < 1
        · rw [launchLoop_skip_emergency sq t fuel avail s hg h1 h2] at hf
          simp at hf
        · by_cases h3 : countByPriority s Priority.Emergency = 0 ∧
              avail < RESERVED_EMERGENCY_ZIPS
          · rw [launchLoop_skip_resupply sq t fuel avail s hg h1 h2 h3] at hf
            simp at hf
          · rw [launchLoop_launch sq t fuel avail s hg h1 h2 h3] at hf
            rcases List.mem_cons.mp hf with hf0 | hfrest
            · rw [hf0, dispatch_flight] at ho
              have homem : o ∈ getUnfulfilledOrders s :=
                (planFlight_subperm sq s).subset ho
              obtain ⟨elem, helem, heq⟩ :=
                (PriorityQueue.mem_toArray_iff s.unfulfilledOrders o).mp homem
              have := hadm elem helem
              rw [heq] at this
              exact this
            · have hadm1 : AdmissibleQueue sq (dispatchPlannedFlight s t
                  (planFlight sq s).1.1 (planFlight sq s).1.2.1).2.1 :=
                dispatch_admissible sq s t _ _ hadm
              have := ih (avail - 1) _ hadm1 f hfrest o ho
              rw [(dispatch_config s t _ _).2.2.2] at this
              exact this
    · rw [launchLoop_stop sq t fuel avail s hg] at hf
      simp at hf

/-- Every active-flight entry after the dispatch loop is either inherited or
fresh, and fresh entries carry `returnTime = t + totalDistance / speed` and
`launchTime = t`. -/
theorem launchLoop_active (sq : ℚ → ℚ) (t : ℚ) :
    ∀ (fuel : ℕ) (avail : ℤ) (s : ZipScheduler),
      ∀ entry ∈ (launchLoop sq t fuel avail s).2.1.activeFlights,
        entry ∈ s.activeFlights ∨
          (entry.returnTime = t + entry.flight.totalDistance / s.zipSpeedMps ∧
            entry.flight.launchTime = t) := by
  intro fuel
  induction fuel with
  | zero =>
    intro avail s entry hentry
    exact Or.inl hentry
  | succ fuel ih =>
    intro avail s entry hentry
    by_cases hg : 0 < avail ∧ ¬ PriorityQueue.isEmpty s.unfulfilledOrders
    · by_cases h1 : ((planFlight sq s).1.1).length = 0
      · rw [launchLoop_noplan sq t fuel avail s hg h1] at hentry
        exact Or.inl hentry
      · by_cases h2 : countByPriority s Priority.Emergency ≠ 0 ∧ avail < 1
        · rw [launchLoop_skip_emergency sq t fuel avail s hg h1 h2] at hentry
          exact Or.inl hentry
        · by_cases h3 : countByPriority s Priority.Emergency = 0 ∧
              avail < RESERVED_EMERGENCY_ZIPS
          · rw [launchLoop_skip_resupply sq t fuel avail s hg h1 h2 h3] at hentry
            exact Or.inl hentry
          · rw [launchLoop_launch sq t fuel avail s hg h1 h2 h3] at hentry
            have := ih (avail - 1) _ entry hentry
            rcases this with hin | hfresh
            · rw [dispatch_active] at hin
              rcases List.mem_append.mp hin with hold | hnew
              · exact Or.inl hold
              · refine Or.inr ?hfr
                have : entry = ⟨calculateReturnTime s t (planFlight sq s).1.2.1,
                    mkFlight t (planFlight sq s).1.1 (planFlight sq s).1.2.1⟩ := by
                  simpa using hnew
                rw [this]
                constructor
                · show calculateReturnTime s t (planFlight sq s).1.2.1 =
                    t + (mkFlight t (planFlight sq s).1.1 (planFlight sq s).1.2.1).totalDistance
                      / s.zipSpeedMps
                  rfl
                · rfl
            · rw [(dispatch_config s t _ _).2.2.1] at hfresh
              exact Or.inr hfresh
    · rw [launchLoop_stop sq t fuel avail s hg] at hentry
      exact Or.inl hentry

end ZipScheduler

namespace ZipScheduler

theorem dequeueFold_perm :
    ∀ (os : List Order) (q : List PriorityQueueElement) (logs : List LogEvent),
      (List.map (fun o => o.id) (PriorityQueue.toArray q)).Nodup →
      os.Subperm (PriorityQueue.toArray q) →
      List.Perm (PriorityQueue.toArray (os.foldl dequeueStep (q, logs)).1 ++ os)
        (PriorityQueue.toArray q) := by
  intro os
  induction os with
  | nil =>
    intro q logs _ _
    simp
  | cons o os ih =>
    intro q logs hnd hsub
    have ho : o ∈ PriorityQueue.toArray q := hsub.subset (List.mem_cons_self o os)
    obtain ⟨elem, helem, heq⟩ := (PriorityQueue.mem_toArray_iff q o).mp ho
    have hex : ∃ x, x ∈ q ∧ (fun element => decide (element.order.id = o.id)) x = true := by
      refine ⟨elem, helem, ?hp⟩
      simp [heq]
    have hfind := List.findIdx?_eq_some_of_exists hex
    set k := List.findIdx (fun element => decide (element.order.id = o.id)) q with hk
    have hkspec := PriorityQueue.findIdx_id_spec q o.id k hfind
    have hvmem : PriorityQueue.val q k ∈ PriorityQueue.toArray q :=
      PriorityQueue.val_mem_toArray q k hkspec.1
    have hveq : PriorityQueue.val q k = o := by
      refine List.inj_on_of_nodup_map hnd hvmem ho ?hid
      exact hkspec.2
    have hperm := PriorityQueue.dequeueById_found_perm q o.id k hfind
    have hperm2 : List.Perm
        (o :: PriorityQueue.toArray (PriorityQueue.dequeueById q o.id).2)
        (PriorityQueue.toArray q) := by
      have := hperm.map (fun element => element.order)
      rw [show (List.map (fun element => element.order)
          (PriorityQueue.hGet q k :: (PriorityQueue.dequeueById q o.id).2)) =
          PriorityQueue.val q k ::
            PriorityQueue.toArray (PriorityQueue.dequeueById q o.id).2 from rfl] at this
      rw [hveq] at this
      exact this
    have hsubq : (PriorityQueue.toArray (PriorityQueue.dequeueById q o.id).2).Subperm
        (PriorityQueue.toArray q) :=
      (List.sublist_cons_self _ _).subperm.trans hperm2.subperm
    have hnd2 : (List.map (fun o => o.id)
        (PriorityQueue.toArray (PriorityQueue.dequeueById q o.id).2)).Nodup :=
      subperm_nodup (subperm_map _ hsubq) hnd
    have hsub2 : os.Subperm
        (PriorityQueue.toArray (PriorityQueue.dequeueById q o.id).2) := by
      have h1 : (o :: os).Subperm
          (o :: PriorityQueue.toArray (PriorityQueue.dequeueById q o.id).2) :=
        hsub.trans hperm2.symm.subperm
      exact (List.subperm_cons o).mp h1
    rw [List.foldl_cons, dequeueStep_expand q logs o]
    have hih := ih (PriorityQueue.dequeueById q o.id).2
      (dequeueStep (q, logs) o).2 hnd2 hsub2
    refine List.Perm.trans ?hmid (List.Perm.trans (hih.cons o) hperm2)
    exact List.perm_middle

theorem dispatch_queue_perm (s : ZipScheduler) (t : ℚ) (fo : List Order) (td : ℚ)
    (hnd : (List.map (fun o => o.id) (PriorityQueue.toArray s.unfulfilledOrders)).Nodup)
    (hsub : fo.Subperm (PriorityQueue.toArray s.unfulfilledOrders)) :
    List.Perm
      (PriorityQueue.toArray (dispatchPlannedFlight s t fo td).2.1.unfulfilledOrders ++ fo)
      (PriorityQueue.toArray s.unfulfilledOrders) :=
  dequeueFold_perm fo s.unfulfilledOrders [] hnd hsub

theorem launchLoop_queue_subset (sq : ℚ → ℚ) (t : ℚ) :
    ∀ (fuel : ℕ) (avail : ℤ) (s : ZipScheduler),
      ∀ e ∈ (launchLoop sq t fuel avail s).2.1.unfulfilledOrders,
        e ∈ s.unfulfilledOrders := by
  intro fuel
  induction fuel with
  | zero => intro avail s e he; exact he
  | succ fuel ih =>
    intro avail s e he
    by_cases hg : 0 < avail ∧ ¬ PriorityQueue.isEmpty s.unfulfilledOrders
    · by_cases h1 : ((planFlight sq s).1.1).length = 0
      · rw [launchLoop_noplan sq t fuel avail s hg h1] at he
        exact he
      · by_cases h2 : countByPriority s Priority.Emergency ≠ 0 ∧ avail < 1
        · rw [launchLoop_skip_emergency sq t fuel avail s hg h1 h2] at he
          exact he
        · by_cases h3 : countByPriority s Priority.Emergency = 0 ∧
              avail < RESERVED_EMERGENCY_ZIPS
          · rw [launchLoop_skip_resupply sq t fuel avail s hg h1 h2 h3] at he
            exact he
          · rw [launchLoop_launch sq t fuel avail s hg h1 h2 h3] at he
            exact dispatch_queue_subset s t _ _ e (ih (avail - 1) _ e he)
    · rw [launchLoop_stop sq t fuel avail s hg] at he
      exact he

theorem launchLoop_isHeap (sq : ℚ → ℚ) (t : ℚ) :
    ∀ (fuel : ℕ) (avail : ℤ) (s : ZipScheduler),
      PriorityQueue.IsHeap s.unfulfilledOrders →
      PriorityQueue.IsHeap (launchLoop sq t fuel avail s).2.1.unfulfilledOrders := by
  intro fuel
  induction fuel with
  | zero => intro avail s hq; exact hq
  | succ fuel ih =>
    intro avail s hq
    by_cases hg : 0 < avail ∧ ¬ PriorityQueue.isEmpty s.unfulfilledOrders
    · by_cases h1 : ((planFlight sq s).1.1).length = 0
      · rw [launchLoop_noplan sq t fuel avail s hg h1]
        exact hq
      · by_cases h2 : countByPriority s Priority.Emergency ≠ 0 ∧ avail < 1
        · rw [launchLoop_skip_emergency sq t fuel avail s hg h1 h2]
          exact hq
        · by_cases h3 : countByPriority s Priority.Emergency = 0 ∧
              avail < RESERVED_EMERGENCY_ZIPS
          · rw [launchLoop_skip_resupply sq t fuel avail s hg h1 h2 h3]
            exact hq
          · rw [launchLoop_launch sq t fuel avail s hg h1 h2 h3]
            exact ih (avail - 1) _ (dispatch_isHeap s t _ _ hq)
    · rw [launchLoop_stop sq t fuel avail s hg]
      exact hq

theorem launchLoop_queue_perm (sq : ℚ → ℚ) (t : ℚ) :
    ∀ (fuel : ℕ) (avail : ℤ) (s : ZipScheduler),
      (List.map (fun o => o.id) (PriorityQueue.toArray s.unfulfilledOrders)).Nodup →
      List.Perm
        (PriorityQueue.toArray (launchLoop sq t fuel avail s).2.1.unfulfilledOrders ++
          (((launchLoop sq t fuel avail s).1).map (fun f => f.orders)).flatten)
        (PriorityQueue.toArray s.unfulfilledOrders) := by
  intro fuel
  induction fuel with
  | zero => intro avail s _; simp [launchLoop]
  | succ fuel ih =>
    intro avail s hnd
    by_cases hg : 0 < avail ∧ ¬ PriorityQueue.isEmpty s.unfulfilledOrders
    · by_cases h1 : ((planFlight sq s).1.1).length = 0
      · rw [launchLoop_noplan sq t fuel avail s hg h1]
        simp
      · by_cases h2 : countByPriority s Priority.Emergency ≠ 0 ∧ avail < 1
        · rw [launchLoop_skip_emergency sq t fuel avail s hg h1 h2]
          simp
        · by_cases h3 : countByPriority s Priority.Emergency = 0 ∧
              avail < RESERVED_EMERGENCY_ZIPS
          · rw [launchLoop_skip_resupply sq t fuel avail s hg h1 h2 h3]
            simp
          · rw [launchLoop_launch sq t fuel avail s hg h1 h2 h3]
            have hsub : ((planFlight sq s).1.1).Subperm
                (PriorityQueue.toArray s.unfulfilledOrders) := planFlight_subperm sq s
            have hqperm := dispatch_queue_perm s t (planFlight sq s).1.1
              (planFlight sq s).1.2.1 hnd hsub
            have hsubq : (PriorityQueue.toArray (dispatchPlannedFlight s t
                (planFlight sq s).1.1 (planFlight sq s).1.2.1).2.1.unfulfilledOrders).Subperm
                (PriorityQueue.toArray s.unfulfilledOrders) :=
              (List.sublist_append_left _ _).subperm.trans hqperm.subperm
            have hnd2 : (List.map (fun o => o.id) (PriorityQueue.toArray
                (dispatchPlannedFlight s t (planFlight sq s).1.1
                  (planFlight sq s).1.2.1).2.1.unfulfilledOrders)).Nodup :=
              subperm_nodup (subperm_map _ hsubq) hnd
            have hih := ih (avail - 1) _ hnd2
            show List.Perm (PriorityQueue.toArray _ ++
              ((dispatchPlannedFlight s t (planFlight sq s).1.1
                (planFlight sq s).1.2.1).1.orders ++ _)) _
            rw [show (dispatchPlannedFlight s t (planFlight sq s).1.1
              (planFlight sq s).1.2.1).1.orders = (planFlight sq s).1.1 from rfl]
            refine List.Perm.trans (List.Perm.append_left _
              (List.perm_append_comm)) ?hnext
            rw [← List.append_assoc]
            exact List.Perm.trans (List.Perm.append_right _ hih) hqperm
    · rw [launchLoop_stop sq t fuel avail s hg]
      simp

end ZipScheduler

namespace ZipScheduler

theorem release_queue (s : ZipScheduler) (t : ℚ) :
    (releaseReturningZips s t).1.unfulfilledOrders = s.unfulfilledOrders := rfl

theorem release_active (s : ZipScheduler) (t : ℚ) :
    (releaseReturningZips s t).1.activeFlights =
      s.activeFlights.filter (fun entry => ¬ entry.returnTime ≤ t) := rfl

theorem release_config (s : ZipScheduler) (t : ℚ) :
    (releaseReturningZips s t).1.numZips = s.numZips ∧
    (releaseReturningZips s t).1.maxPackagesPerZip = s.maxPackagesPerZip ∧
    (releaseReturningZips s t).1.zipSpeedMps = s.zipSpeedMps ∧
    (releaseReturningZips s t).1.zipMaxCumulativeRangeM = s.zipMaxCumulativeRangeM :=
  ⟨rfl, rfl, rfl, rfl⟩

theorem launchLoop_config (sq : ℚ → ℚ) (t : ℚ) :
    ∀ (fuel : ℕ) (avail : ℤ) (s : ZipScheduler),
      (launchLoop sq t fuel avail s).2.1.numZips = s.numZips ∧
      (launchLoop sq t fuel avail s).2.1.maxPackagesPerZip = s.maxPackagesPerZip ∧
      (launchLoop sq t fuel avail s).2.1.zipSpeedMps = s.zipSpeedMps ∧
      (launchLoop sq t fuel avail s).2.1.zipMaxCumulativeRangeM = s.zipMaxCumulativeRangeM := by
  intro fuel
  induction fuel with
  | zero => intro avail s; exact ⟨rfl, rfl, rfl, rfl⟩
  | succ fuel ih =>
    intro avail s
    by_cases hg : 0 < avail ∧ ¬ PriorityQueue.isEmpty s.unfulfilledOrders
    · by_cases h1 : ((planFlight sq s).1.1).length = 0
      · rw [launchLoop_noplan sq t fuel avail s hg h1]
        exact ⟨rfl, rfl, rfl, rfl⟩
      · by_cases h2 : countByPriority s Priority.Emergency ≠ 0 ∧ avail < 1
        · rw [launchLoop_skip_emergency sq t fuel avail s hg h1 h2]
          exact ⟨rfl, rfl, rfl, rfl⟩
        · by_cases h3 : countByPriority s Priority.Emergency = 0 ∧
              avail < RESERVED_EMERGENCY_ZIPS
          · rw [launchLoop_skip_resupply sq t fuel avail s hg h1 h2 h3]
            exact ⟨rfl, rfl, rfl, rfl⟩
          · rw [launchLoop_launch sq t fuel avail s hg h1 h2 h3]
            have := ih (avail - 1) (dispatchPlannedFlight s t (planFlight sq s).1.1
              (planFlight sq s).1.2.1).2.1
            have hd := dispatch_config s t (planFlight sq s).1.1 (planFlight sq s).1.2.1
            exact ⟨this.1.trans hd.1, this.2.1.trans hd.2.1, this.2.2.1.trans hd.2.2.1,
              this.2.2.2.trans hd.2.2.2⟩
    · rw [launchLoop_stop sq t fuel avail s hg]
      exact ⟨rfl, rfl, rfl, rfl⟩

theorem launchFlights_empty_case (sq : ℚ → ℚ) (s : ZipScheduler) (t : ℚ)
    (h : PriorityQueue.isEmpty (releaseReturningZips s t).1.unfulfilledOrders) :
    launchFlights sq s t = ([], (releaseReturningZips s t).1, (releaseReturningZips s t).2) := by
  simp only [launchFlights]
  rw [if_pos h]

theorem launchFlights_loop_case (sq : ℚ → ℚ) (s : ZipScheduler) (t : ℚ)
    (h : ¬ PriorityQueue.isEmpty (releaseReturningZips s t).1.unfulfilledOrders) :
    launchFlights sq s t =
      ((launchLoop sq t ((releaseReturningZips s t).1.numZips -
          (releaseReturningZips s t).1.activeFlights.length : ℤ).toNat
          ((releaseReturningZips s t).1.numZips -
            (releaseReturningZips s t).1.activeFlights.length : ℤ)
          (releaseReturningZips s t).1).1,
       (launchLoop sq t ((releaseReturningZips s t).1.numZips -
          (releaseReturningZips s t).1.activeFlights.length : ℤ).toNat
          ((releaseReturningZips s t).1.numZips -
            (releaseReturningZips s t).1.activeFlights.length : ℤ)
          (releaseReturningZips s t).1).2.1,
       (releaseReturningZips s t).2 ++
         (launchLoop sq t ((releaseReturningZips s t).1.numZips -
            (releaseReturningZips s t).1.activeFlights.length : ℤ).toNat
            ((releaseReturningZips s t).1.numZips -
              (releaseReturningZips s t).1.activeFlights.length : ℤ)
            (releaseReturningZips s t).1).2.2) := by
  simp only [launchFlights]
  rw [if_neg h]

theorem queueOrder_reject (sq : ℚ → ℚ) (s : ZipScheduler) (order : Order)
    (h : 2 * calculateDistance sq nestPoint order.hospital.toPoint >
      s.zipMaxCumulativeRangeM) :
    queueOrder sq s order = (s, [LogEvent.errorOrderExceedsRange order.id]) := by
  simp only [queueOrder]
  rw [if_pos h]

theorem queueOrder_accept (sq : ℚ → ℚ) (s : ZipScheduler) (order : Order)
    (h : ¬ 2 * calculateDistance sq nestPoint order.hospital.toPoint >
      s.zipMaxCumulativeRangeM) :
    queueOrder sq s order =
      ({ s with unfulfilledOrders := PriorityQueue.enqueue s.unfulfilledOrders order },
       [LogEvent.infoOrderQueued order.id]) := by
  simp only [queueOrder]
  rw [if_neg h]

theorem applyEvent_admissible (sq : ℚ → ℚ) (s : ZipScheduler) (e : SchedEvent)
    (hadm : AdmissibleQueue sq s) : AdmissibleQueue sq (applyEvent sq s e) := by
  cases e with
  | queueOrder order =>
    show AdmissibleQueue sq (queueOrder sq s order).1
    by_cases h : 2 * calculateDistance sq nestPoint order.hospital.toPoint >
        s.zipMaxCumulativeRangeM
    · rw [queueOrder_reject sq s order h]
      exact hadm
    · rw [queueOrder_accept sq s order h]
      intro elem helem
      have hmem : elem ∈ (⟨order⟩ : PriorityQueueElement) :: s.unfulfilledOrders :=
        (PriorityQueue.enqueue_perm s.unfulfilledOrders order).mem_iff.mp helem
      rcases List.mem_cons.mp hmem with h1 | h1
      · rw [h1]
        show 2 * calculateDistance sq nestPoint order.hospital.toPoint ≤
          s.zipMaxCumulativeRangeM
        exact le_of_not_lt h
      · exact hadm elem h1
  | launchFlights t =>
    show AdmissibleQueue sq (launchFlights sq s t).2.1
    by_cases h : PriorityQueue.isEmpty (releaseReturningZips s t).1.unfulfilledOrders
    · rw [launchFlights_empty_case sq s t h]
      exact hadm
    · rw [launchFlights_loop_case sq s t h]
      intro elem helem
      have hrel : AdmissibleQueue sq (releaseReturningZips s t).1 := by
        intro e2 he2
        rw [(release_config s t).2.2.2]
        exact hadm e2 he2
      have hcfg := (launchLoop_config sq t
        ((releaseReturningZips s t).1.numZips -
          (releaseReturningZips s t).1.activeFlights.length : ℤ).toNat
        ((releaseReturningZips s t).1.numZips -
          (releaseReturningZips s t).1.activeFlights.length : ℤ)
        (releaseReturningZips s t).1).2.2.2
      rw [hcfg, (release_config s t).2.2.2]
      have hmem := launchLoop_queue_subset sq t _ _ (releaseReturningZips s t).1 elem helem
      rw [release_queue] at hmem
      exact hadm elem hmem

theorem applyEvent_isHeap (sq : ℚ → ℚ) (s : ZipScheduler) (e : SchedEvent)
    (hq : PriorityQueue.IsHeap s.unfulfilledOrders) :
    PriorityQueue.IsHeap (applyEvent sq s e).unfulfilledOrders := by
  cases e with
  | queueOrder order =>
    show PriorityQueue.IsHeap (queueOrder sq s order).1.unfulfilledOrders
    by_cases h : 2 * calculateDistance sq nestPoint order.hospital.toPoint >
        s.zipMaxCumulativeRangeM
    · rw [queueOrder_reject sq s order h]
      exact hq
    · rw [queueOrder_accept sq s order h]
      exact PriorityQueue.enqueue_isHeap s.unfulfilledOrders order hq
  | launchFlights t =>
    show PriorityQueue.IsHeap (launchFlights sq s t).2.1.unfulfilledOrders
    by_cases h : PriorityQueue.isEmpty (releaseReturningZips s t).1.unfulfilledOrders
    · rw [launchFlights_empty_case sq s t h]
      exact hq
    · rw [launchFlights_loop_case sq s t h]
      exact launchLoop_isHeap sq t _ _ (releaseReturningZips s t).1 hq

theorem runEvents_invariant (sq : ℚ → ℚ)
    (hospitals : List (String × Hospital)) (numZips maxPackagesPerZip : ℕ)
    (zipSpeedMps zipMaxCumulativeRangeM : ℚ) (events : List SchedEvent) :
    AdmissibleQueue sq (runEvents sq (mkZipScheduler hospitals numZips maxPackagesPerZip
      zipSpeedMps zipMaxCumulativeRangeM) events) ∧
    PriorityQueue.IsHeap (runEvents sq (mkZipScheduler hospitals numZips maxPackagesPerZip
      zipSpeedMps zipMaxCumulativeRangeM) events).unfulfilledOrders := by
  have hgen : ∀ (es : List SchedEvent) (s : ZipScheduler), AdmissibleQueue sq s →
      PriorityQueue.IsHeap s.unfulfilledOrders →
      AdmissibleQueue sq (runEvents sq s es) ∧
        PriorityQueue.IsHeap (runEvents sq s es).unfulfilledOrders := by
    intro es
    induction es with
    | nil => intro s h1 h2; exact ⟨h1, h2⟩
    | cons e es ih =>
      intro s h1 h2
      exact ih _ (applyEvent_admissible sq s e h1) (applyEvent_isHeap sq s e h2)
  refine hgen events _ ?h1 ?h2
  · intro e he
    simp [mkZipScheduler] at he
  · intro j hj
    simp [mkZipScheduler] at hj

end ZipScheduler

namespace PriorityQueue

theorem foldl_enqueue_isHeap :
    ∀ (orders : List Order) (heap : List PriorityQueueElement),
      IsHeap heap → IsHeap (orders.foldl enqueue heap) := by
  intro orders
  induction orders with
  | nil => intro heap h; exact h
  | cons o os ih =>
    intro heap h
    rw [List.foldl_cons]
    exact ih _ (enqueue_isHeap heap o h)

theorem foldl_enqueue_perm :
    ∀ (orders : List Order) (heap : List PriorityQueueElement),
      List.Perm (toArray (orders.foldl enqueue heap)) (toArray heap ++ orders) := by
  intro orders
  induction orders with
  | nil => intro heap; simp
  | cons o os ih =>
    intro heap
    rw [List.foldl_cons]
    refine (ih (enqueue heap o)).trans ?hnext
    have h1 : List.Perm (toArray (enqueue heap o)) (o :: toArray heap) := by
      have := (enqueue_perm heap o).map (fun element => element.order)
      exact this
    refine (List.Perm.append_right os h1).trans ?hnext2
    show List.Perm (o :: (toArray heap ++ os)) (toArray heap ++ o :: os)
    exact List.perm_middle.symm

end PriorityQueue

namespace ZipScheduler

theorem dequeueFold_logs_mono :
    ∀ (os : List Order) (q : List PriorityQueueElement) (logs : List LogEvent)
      (l : LogEvent), l ∈ logs → l ∈ (os.foldl dequeueStep (q, logs)).2 := by
  intro os
  induction os with
  | nil => intro q logs l hl; exact hl
  | cons o os ih =>
    intro q logs l hl
    rw [List.foldl_cons]
    have hstep : l ∈ (dequeueStep (q, logs) o).2 := by
      unfold dequeueStep
      dsimp only
      split
      · exact List.mem_append_left _ hl
      · exact List.mem_append_left _ hl
    rw [dequeueStep_expand q logs o]
    exact ih _ _ l hstep

theorem dequeueFold_error_logged :
    ∀ (os : List Order) (q : List PriorityQueueElement) (logs : List LogEvent)
      (o : Order), o ∈ os → (∀ e ∈ q, ¬ e.order.id = o.id) →
      LogEvent.errorFailedDequeue o.id ∈ (os.foldl dequeueStep (q, logs)).2 := by
  intro os
  induction os with
  | nil => intro q logs o ho _; simp at ho
  | cons x xs ih =>
    intro q logs o ho habs
    rw [List.foldl_cons]
    rcases List.mem_cons.mp ho with hox | hox
    · -- the failing stop itself: dequeueById finds nothing, the error is appended
      have hnf : PriorityQueue.dequeueById q x.id = (none, q) := by
        refine PriorityQueue.dequeueById_not_found q x.id ?habs2
        intro e he
        rw [← hox]
        exact habs e he
      have hstep : dequeueStep (q, logs) x =
          (q, logs ++ [LogEvent.errorFailedDequeue x.id]) := by
        unfold dequeueStep
        rw [hnf]
      rw [hstep]
      refine dequeueFold_logs_mono xs q _ _ ?hin
      rw [hox]
      exact List.mem_append_right _ (List.mem_singleton.mpr rfl)
    · have hexp := dequeueStep_expand q logs x
      rw [hexp]
      refine ih _ _ o hox ?habs3
      intro e he
      exact habs e (PriorityQueue.dequeueById_subset q x.id e he)

end ZipScheduler

/-! ### Exact square-root values used by the concrete scenarios -/

theorem sqrtQ_0 : sqrtQ 0 = 0 := by
  unfold sqrtQ
  rw [show ((0 : ℚ).num.toNat) = 0 from rfl, show (0 : ℚ).den = 1 from rfl]
  norm_num [isqrt]

theorem sqrtQ_1 : sqrtQ 1 = 1 := by
  unfold sqrtQ
  rw [show ((1 : ℚ).num.toNat) = 1 from rfl, show (1 : ℚ).den = 1 from rfl]
  norm_num [isqrt]

theorem sqrtQ_100 : sqrtQ 100 = 10 := by
  unfold sqrtQ
  rw [show ((100 : ℚ).num.toNat) = 100 from rfl, show (100 : ℚ).den = 1 from rfl]
  rw [show isqrt 100 = 10 from by decide, show isqrt 1 = 1 from by decide]
  norm_num

theorem sqrtQ_121 : sqrtQ 121 = 11 := by
  unfold sqrtQ
  rw [show ((121 : ℚ).num.toNat) = 121 from rfl, show (121 : ℚ).den = 1 from rfl]
  rw [show isqrt 121 = 11 from by decide, show isqrt 1 = 1 from by decide]
  norm_num

theorem sqrtQ_10000 : sqrtQ 10000 = 100 := by
  unfold sqrtQ
  rw [show ((10000 : ℚ).num.toNat) = 10000 from rfl, show (10000 : ℚ).den = 1 from rfl]
  rw [show isqrt 10000 = 100 from by decide, show isqrt 1 = 1 from by decide]
  norm_num

theorem sqrtQ_2250000 : sqrtQ 2250000 = 1500 := by
  unfold sqrtQ
  rw [show ((2250000 : ℚ).num.toNat) = 2250000 from rfl,
    show (2250000 : ℚ).den = 1 from rfl]
  rw [show isqrt 2250000 = 1500 from by decide, show isqrt 1 = 1 from by decide]
  norm_num

theorem sqrtQ_9000000 : sqrtQ 9000000 = 3000 := by
  unfold sqrtQ
  rw [show ((9000000 : ℚ).num.toNat) = 9000000 from rfl,
    show (9000000 : ℚ).den = 1 from rfl]
  rw [show isqrt 9000000 = 3000 from by decide, show isqrt 1 = 1 from by decide]
  norm_num

theorem sqrtQ_16000000 : sqrtQ 16000000 = 4000 := by
  unfold sqrtQ
  rw [show ((16000000 : ℚ).num.toNat) = 16000000 from rfl,
    show (16000000 : ℚ).den = 1 from rfl]
  rw [show isqrt 16000000 = 4000 from by decide, show isqrt 1 = 1 from by decide]
  norm_num

theorem sqrtQ_8100000000 : sqrtQ 8100000000 = 90000 := by
  unfold sqrtQ
  rw [show ((8100000000 : ℚ).num.toNat) = 8100000000 from rfl,
    show (8100000000 : ℚ).den = 1 from rfl]
  rw [show isqrt 8100000000 = 90000 from by decide, show isqrt 1 = 1 from by decide]
  norm_num

/-- C4: for every sequence of enqueues into the request queue, repeatedly
dequeuing the highest-priority element until empty yields exactly the enqueued
orders, with every Emergency order before any Resupply order, and with
non-decreasing arrival times within each priority class. -/
theorem claim_C4_queue_ordering (orders : List Order) :
    List.Perm
      (PriorityQueue.drainHeap (orders.foldl PriorityQueue.enqueue []).length
        (orders.foldl PriorityQueue.enqueue [])) orders ∧
    List.Pairwise (fun a b => a.priority = Priority.Resupply → b.priority = Priority.Resupply)
      (PriorityQueue.drainHeap (orders.foldl PriorityQueue.enqueue []).length
        (orders.foldl PriorityQueue.enqueue [])) ∧
    List.Pairwise (fun a b => a.priority = b.priority → a.time ≤ b.time)
      (PriorityQueue.drainHeap (orders.foldl PriorityQueue.enqueue []).length
        (orders.foldl PriorityQueue.enqueue [])) := by
  have hheap : PriorityQueue.IsHeap (orders.foldl PriorityQueue.enqueue []) := by
    refine PriorityQueue.foldl_enqueue_isHeap orders [] ?hnil
    intro j hj
    simp at hj
  have hperm := PriorityQueue.drainHeap_perm (orders.foldl PriorityQueue.enqueue []).length
    (orders.foldl PriorityQueue.enqueue []) le_rfl
  have htoA := PriorityQueue.foldl_enqueue_perm orders []
  have htoA2 : List.Perm (PriorityQueue.toArray (orders.foldl PriorityQueue.enqueue []))
      orders := by
    refine htoA.trans ?heq
    rw [show PriorityQueue.toArray [] = [] from rfl]
    rw [List.nil_append]
  have hsorted := PriorityQueue.drainHeap_sorted
    (orders.foldl PriorityQueue.enqueue []).length (orders.foldl PriorityQueue.enqueue [])
    hheap
  refine ⟨hperm.trans htoA2, ?hclass, ?htime⟩
  · refine hsorted.imp ?himp
    intro a b hab hra
    cases hpb : b.priority with
    | Emergency =>
      exfalso
      rw [PriorityQueue.le_iff, hra, hpb] at hab
      simp [PriorityQueue.priorityIdx] at hab
    | Resupply => rfl
  · refine hsorted.imp ?himp2
    intro a b hab heqp
    rw [PriorityQueue.le_iff, heqp] at hab
    omega

/-- C5: on a heap containing an element with the given id, `dequeueById`
returns exactly the element found by the id scan, the remaining heap still
satisfies the heap invariant, the multiset of elements is the original minus
that element, and the size decreases by one; on a heap with no matching
element, `dequeueById` returns not-found and leaves the heap unchanged. -/
theorem claim_C5_removal (heap : List PriorityQueueElement) (id : String)
    (hl : PriorityQueue.IsHeap heap) :
    ((∃ e ∈ heap, e.order.id = id) →
      ∃ k, heap.findIdx? (fun element => element.order.id = id) = some k ∧
        (PriorityQueue.dequeueById heap id).1 = some (PriorityQueue.val heap k) ∧
        PriorityQueue.IsHeap (PriorityQueue.dequeueById heap id).2 ∧
        List.Perm (PriorityQueue.hGet heap k :: (PriorityQueue.dequeueById heap id).2) heap ∧
        PriorityQueue.size (PriorityQueue.dequeueById heap id).2 =
          PriorityQueue.size heap - 1) ∧
    ((∀ e ∈ heap, ¬ e.order.id = id) →
      PriorityQueue.dequeueById heap id = (none, heap)) := by
  constructor
  · intro ⟨e, he, hid⟩
    have hex : ∃ x, x ∈ heap ∧ (fun element => decide (element.order.id = id)) x = true :=
      ⟨e, he, by simp [hid]⟩
    have hfind := List.findIdx?_eq_some_of_exists hex
    refine ⟨_, hfind, PriorityQueue.dequeueById_found_fst heap id _ hfind,
      PriorityQueue.dequeueById_found_isHeap heap id _ hl hfind,
      PriorityQueue.dequeueById_found_perm heap id _ hfind, ?hsize⟩
    show (PriorityQueue.dequeueById heap id).2.length = heap.length - 1
    exact PriorityQueue.dequeueById_found_length heap id _ hfind
  · exact PriorityQueue.dequeueById_not_found heap id

/-- Witness for C5: a concrete three-element heap containing id "b"; the
middle element is removed, the rest remains a heap, one element shorter. -/
theorem claim_C5_removal_witness :
    PriorityQueue.IsHeap
      [⟨⟨"a", 0, ⟨"HA", 1, 2⟩, Priority.Emergency⟩⟩,
       ⟨⟨"b", 5, ⟨"HB", 3, 4⟩, Priority.Resupply⟩⟩,
       ⟨⟨"c", 7, ⟨"HC", 5, 6⟩, Priority.Resupply⟩⟩] ∧
    (∃ e ∈ ([⟨⟨"a", 0, ⟨"HA", 1, 2⟩, Priority.Emergency⟩⟩,
       ⟨⟨"b", 5, ⟨"HB", 3, 4⟩, Priority.Resupply⟩⟩,
       ⟨⟨"c", 7, ⟨"HC", 5, 6⟩, Priority.Resupply⟩⟩] : List PriorityQueueElement),
       e.order.id = "b") ∧
    (∃ k, ([⟨⟨"a", 0, ⟨"HA", 1, 2⟩, Priority.Emergency⟩⟩,
       ⟨⟨"b", 5, ⟨"HB", 3, 4⟩, Priority.Resupply⟩⟩,
       ⟨⟨"c", 7, ⟨"HC", 5, 6⟩, Priority.Resupply⟩⟩] : List PriorityQueueElement).findIdx?
         (fun element => element.order.id = "b") = some k ∧
      (PriorityQueue.dequeueById
        [⟨⟨"a", 0, ⟨"HA", 1, 2⟩, Priority.Emergency⟩⟩,
         ⟨⟨"b", 5, ⟨"HB", 3, 4⟩, Priority.Resupply⟩⟩,
         ⟨⟨"c", 7, ⟨"HC", 5, 6⟩, Priority.Resupply⟩⟩] "b").1 =
        some (PriorityQueue.val
          [⟨⟨"a", 0, ⟨"HA", 1, 2⟩, Priority.Emergency⟩⟩,
           ⟨⟨"b", 5, ⟨"HB", 3, 4⟩, Priority.Resupply⟩⟩,
           ⟨⟨"c", 7, ⟨"HC", 5, 6⟩, Priority.Resupply⟩⟩] k) ∧
      PriorityQueue.IsHeap (PriorityQueue.dequeueById
        [⟨⟨"a", 0, ⟨"HA", 1, 2⟩, Priority.Emergency⟩⟩,
         ⟨⟨"b", 5, ⟨"HB", 3, 4⟩, Priority.Resupply⟩⟩,
         ⟨⟨"c", 7, ⟨"HC", 5, 6⟩, Priority.Resupply⟩⟩] "b").2 ∧
      List.Perm (PriorityQueue.hGet
        [⟨⟨"a", 0, ⟨"HA", 1, 2⟩, Priority.Emergency⟩⟩,
         ⟨⟨"b", 5, ⟨"HB", 3, 4⟩, Priority.Resupply⟩⟩,
         ⟨⟨"c", 7, ⟨"HC", 5, 6⟩, Priority.Resupply⟩⟩] k ::
        (PriorityQueue.dequeueById
          [⟨⟨"a", 0, ⟨"HA", 1, 2⟩, Priority.Emergency⟩⟩,
           ⟨⟨"b", 5, ⟨"HB", 3, 4⟩, Priority.Resupply⟩⟩,
           ⟨⟨"c", 7, ⟨"HC", 5, 6⟩, Priority.Resupply⟩⟩] "b").2)
        [⟨⟨"a", 0, ⟨"HA", 1, 2⟩, Priority.Emergency⟩⟩,
         ⟨⟨"b", 5, ⟨"HB", 3, 4⟩, Priority.Resupply⟩⟩,
         ⟨⟨"c", 7, ⟨"HC", 5, 6⟩, Priority.Resupply⟩⟩] ∧
      PriorityQueue.size (PriorityQueue.dequeueById
        [⟨⟨"a", 0, ⟨"HA", 1, 2⟩, Priority.Emergency⟩⟩,
         ⟨⟨"b", 5, ⟨"HB", 3, 4⟩, Priority.Resupply⟩⟩,
         ⟨⟨"c", 7, ⟨"HC", 5, 6⟩, Priority.Resupply⟩⟩] "b").2 =
        PriorityQueue.size
          [⟨⟨"a", 0, ⟨"HA", 1, 2⟩, Priority.Emergency⟩⟩,
           ⟨⟨"b", 5, ⟨"HB", 3, 4⟩, Priority.Resupply⟩⟩,
           ⟨⟨"c", 7, ⟨"HC", 5, 6⟩, Priority.Resupply⟩⟩] - 1) := by
  have hl : PriorityQueue.IsHeap
      [⟨⟨"a", 0, ⟨"HA", 1, 2⟩, Priority.Emergency⟩⟩,
       ⟨⟨"b", 5, ⟨"HB", 3, 4⟩, Priority.Resupply⟩⟩,
       ⟨⟨"c", 7, ⟨"HC", 5, 6⟩, Priority.Resupply⟩⟩] := by decide
  exact ⟨hl, by decide, (claim_C5_removal _ "b" hl).1 (by decide)⟩

/-- C6: `planFlight` returns at most `maxPackagesPerZip` stops whose returned
`totalDistance` (final leg back to the depot included) never exceeds the
maximum cumulative round-trip range, and a selected candidate whose extended
distance would exceed the range is discarded from the planning pass without
aborting it — the loop continues on the remaining candidates. -/
theorem claim_C6_planner (sq : ℚ → ℚ) (s : ZipScheduler)
    (h0 : 0 ≤ s.zipMaxCumulativeRangeM) :
    ((ZipScheduler.planFlight sq s).1.1.length ≤ s.maxPackagesPerZip) ∧
    ((ZipScheduler.planFlight sq s).1.2.1 ≤ s.zipMaxCumulativeRangeM) ∧
    (∀ (fuel : ℕ) (acc : List Order) (td : ℚ) (cur : Point) (avail : List Order)
        (o : Order) (d : ℚ),
      (acc.length < s.maxPackagesPerZip ∧ 0 < avail.length) →
      ZipScheduler.selectOrder sq cur avail = some (o, d) →
      ¬ td + d + calculateDistance sq o.hospital.toPoint nestPoint ≤
        s.zipMaxCumulativeRangeM →
      (ZipScheduler.planLoop sq s.maxPackagesPerZip s.zipMaxCumulativeRangeM (fuel + 1)
          acc td cur avail).1 =
        (ZipScheduler.planLoop sq s.maxPackagesPerZip s.zipMaxCumulativeRangeM fuel
          acc td cur (avail.eraseIdx (avail.indexOf o))).1 ∧
      (ZipScheduler.planLoop sq s.maxPackagesPerZip s.zipMaxCumulativeRangeM (fuel + 1)
          acc td cur avail).2.1 =
        (ZipScheduler.planLoop sq s.maxPackagesPerZip s.zipMaxCumulativeRangeM fuel
          acc td cur (avail.eraseIdx (avail.indexOf o))).2.1) := by
  refine ⟨ZipScheduler.planFlight_length sq s, ?hrange, ?hdiscard⟩
  · by_cases hne : (ZipScheduler.planFlight sq s).1.1 = []
    · rw [ZipScheduler.planFlight_empty_td sq s hne]
      exact h0
    · exact ZipScheduler.planFlight_range sq s (List.length_pos.mpr hne)
  · intro fuel acc td cur avail o d hg hsel hnofit
    rw [ZipScheduler.planLoop_reject sq s.maxPackagesPerZip s.zipMaxCumulativeRangeM
      fuel acc td cur avail o d hg hsel hnofit]
    exact ⟨rfl, rfl⟩

theorem resupply_ne_emergency : ¬ Priority.Resupply = Priority.Emergency := by decide

theorem emergency_ne_resupply : ¬ Priority.Emergency = Priority.Resupply := by decide

/-- Witness for C6: with range 11 and the route currently at (10, 0), the
nearest candidate (at (11, 0), extended distance 12) is discarded but
planning continues and still appends the feasible candidate at the depot. -/
theorem claim_C6_planner_witness :
    (0 : ℚ) ≤ (mkZipScheduler [] 1 3 30 11).zipMaxCumulativeRangeM ∧
    (([] : List Order).length < (mkZipScheduler [] 1 3 30 11).maxPackagesPerZip ∧
      0 < ([⟨"A", 0, ⟨"HA", 11, 0⟩, Priority.Resupply⟩,
            ⟨"B", 1, ⟨"HB", 0, 0⟩, Priority.Resupply⟩] : List Order).length) ∧
    ZipScheduler.selectOrder sqrtQ ⟨10, 0⟩
      [⟨"A", 0, ⟨"HA", 11, 0⟩, Priority.Resupply⟩,
       ⟨"B", 1, ⟨"HB", 0, 0⟩, Priority.Resupply⟩] =
      some (⟨"A", 0, ⟨"HA", 11, 0⟩, Priority.Resupply⟩, 1) ∧
    ¬ (0 : ℚ) + 1 + calculateDistance sqrtQ
        (Order.hospital ⟨"A", 0, ⟨"HA", 11, 0⟩, Priority.Resupply⟩).toPoint nestPoint ≤
      (mkZipScheduler [] 1 3 30 11).zipMaxCumulativeRangeM ∧
    ((ZipScheduler.planLoop sqrtQ (mkZipScheduler [] 1 3 30 11).maxPackagesPerZip
        (mkZipScheduler [] 1 3 30 11).zipMaxCumulativeRangeM 2 [] 0 ⟨10, 0⟩
        [⟨"A", 0, ⟨"HA", 11, 0⟩, Priority.Resupply⟩,
         ⟨"B", 1, ⟨"HB", 0, 0⟩, Priority.Resupply⟩]).1 =
      (ZipScheduler.planLoop sqrtQ (mkZipScheduler [] 1 3 30 11).maxPackagesPerZip
        (mkZipScheduler [] 1 3 30 11).zipMaxCumulativeRangeM 1 [] 0 ⟨10, 0⟩
        (([⟨"A", 0, ⟨"HA", 11, 0⟩, Priority.Resupply⟩,
           ⟨"B", 1, ⟨"HB", 0, 0⟩, Priority.Resupply⟩] : List Order).eraseIdx
          (([⟨"A", 0, ⟨"HA", 11, 0⟩, Priority.Resupply⟩,
             ⟨"B", 1, ⟨"HB", 0, 0⟩, Priority.Resupply⟩] : List Order).indexOf
            (⟨"A", 0, ⟨"HA", 11, 0⟩, Priority.Resupply⟩ : Order)))).1) ∧
    (ZipScheduler.planLoop sqrtQ (mkZipScheduler [] 1 3 30 11).maxPackagesPerZip
        (mkZipScheduler [] 1 3 30 11).zipMaxCumulativeRangeM 2 [] 0 ⟨10, 0⟩
        [⟨"A", 0, ⟨"HA", 11, 0⟩, Priority.Resupply⟩,
         ⟨"B", 1, ⟨"HB", 0, 0⟩, Priority.Resupply⟩]).1 =
      [⟨"B", 1, ⟨"HB", 0, 0⟩, Priority.Resupply⟩] := by
  have hsel : ZipScheduler.selectOrder sqrtQ ⟨10, 0⟩
      [⟨"A", 0, ⟨"HA", 11, 0⟩, Priority.Resupply⟩,
       ⟨"B", 1, ⟨"HB", 0, 0⟩, Priority.Resupply⟩] =
      some (⟨"A", 0, ⟨"HA", 11, 0⟩, Priority.Resupply⟩, 1) := by
    norm_num [ZipScheduler.selectOrder, ZipScheduler.findNearestOrder,
      ZipScheduler.nearerOrder, calculateDistance, Hospital.toPoint, nestPoint,
      sqrtQ_1, sqrtQ_100, List.filter_cons, resupply_ne_emergency, emergency_ne_resupply]
  have hnofit : ¬ (0 : ℚ) + 1 + calculateDistance sqrtQ
      (Order.hospital ⟨"A", 0, ⟨"HA", 11, 0⟩, Priority.Resupply⟩).toPoint nestPoint ≤
      (mkZipScheduler [] 1 3 30 11).zipMaxCumulativeRangeM := by
    norm_num [calculateDistance, Hospital.toPoint, nestPoint, sqrtQ_121, mkZipScheduler]
  have hg : (([] : List Order).length < (mkZipScheduler [] 1 3 30 11).maxPackagesPerZip ∧
      0 < ([⟨"A", 0, ⟨"HA", 11, 0⟩, Priority.Resupply⟩,
            ⟨"B", 1, ⟨"HB", 0, 0⟩, Priority.Resupply⟩] : List Order).length) := by
    norm_num [mkZipScheduler]
  have hrun : (ZipScheduler.planLoop sqrtQ (mkZipScheduler [] 1 3 30 11).maxPackagesPerZip
      (mkZipScheduler [] 1 3 30 11).zipMaxCumulativeRangeM 2 [] 0 ⟨10, 0⟩
      [⟨"A", 0, ⟨"HA", 11, 0⟩, Priority.Resupply⟩,
       ⟨"B", 1, ⟨"HB", 0, 0⟩, Priority.Resupply⟩]).1 =
      [⟨"B", 1, ⟨"HB", 0, 0⟩, Priority.Resupply⟩] := by
    norm_num [ZipScheduler.planLoop, ZipScheduler.selectOrder,
      ZipScheduler.findNearestOrder, ZipScheduler.nearerOrder, calculateDistance,
      Hospital.toPoint, nestPoint, sqrtQ_0, sqrtQ_1, sqrtQ_100, sqrtQ_121,
      mkZipScheduler, List.indexOf_cons, List.filter_cons, resupply_ne_emergency,
      emergency_ne_resupply]
  exact ⟨by norm_num [mkZipScheduler], hg, hsel, hnofit,
    ((claim_C6_planner sqrtQ (mkZipScheduler [] 1 3 30 11)
      (by norm_num [mkZipScheduler])).2.2 1 [] 0 ⟨10, 0⟩ _ _ _ hg hsel hnofit).1, hrun⟩

/-- C3: an order farther than half the range from the depot is rejected by
`queueOrder` — the scheduler state (hence the queue and its size) is unchanged
and the rejection is reported — and such an order never appears in the stops
of any flight launched from a reachable state; an order within the bound is
enqueued (size grows by one and the order is in the queue). -/
theorem claim_C3_range_rejection (sq : ℚ → ℚ)
    (hospitals : List (String × Hospital)) (numZips maxPackagesPerZip : ℕ)
    (zipSpeedMps zipMaxCumulativeRangeM : ℚ) (events : List SchedEvent)
    (order : Order) (t : ℚ) :
    (2 * calculateDistance sq nestPoint order.hospital.toPoint >
        (runEvents sq (mkZipScheduler hospitals numZips maxPackagesPerZip zipSpeedMps
          zipMaxCumulativeRangeM) events).zipMaxCumulativeRangeM →
      ZipScheduler.queueOrder sq (runEvents sq (mkZipScheduler hospitals numZips
        maxPackagesPerZip zipSpeedMps zipMaxCumulativeRangeM) events) order =
        (runEvents sq (mkZipScheduler hospitals numZips maxPackagesPerZip zipSpeedMps
          zipMaxCumulativeRangeM) events,
         [LogEvent.errorOrderExceedsRange order.id])) ∧
    (2 * calculateDistance sq nestPoint order.hospital.toPoint ≤
        (runEvents sq (mkZipScheduler hospitals numZips maxPackagesPerZip zipSpeedMps
          zipMaxCumulativeRangeM) events).zipMaxCumulativeRangeM →
      (ZipScheduler.queueOrder sq (runEvents sq (mkZipScheduler hospitals numZips
          maxPackagesPerZip zipSpeedMps zipMaxCumulativeRangeM) events)
          order).1.unfulfilledOrdersCount =
        (runEvents sq (mkZipScheduler hospitals numZips maxPackagesPerZip zipSpeedMps
          zipMaxCumulativeRangeM) events).unfulfilledOrdersCount + 1 ∧
      order ∈ ZipScheduler.getUnfulfilledOrders (ZipScheduler.queueOrder sq
        (runEvents sq (mkZipScheduler hospitals numZips maxPackagesPerZip zipSpeedMps
          zipMaxCumulativeRangeM) events) order).1) ∧
    (∀ f ∈ (ZipScheduler.launchFlights sq (runEvents sq (mkZipScheduler hospitals numZips
        maxPackagesPerZip zipSpeedMps zipMaxCumulativeRangeM) events) t).1,
      ∀ o ∈ f.orders, 2 * calculateDistance sq nestPoint o.hospital.toPoint ≤
        (runEvents sq (mkZipScheduler hospitals numZips maxPackagesPerZip zipSpeedMps
          zipMaxCumulativeRangeM) events).zipMaxCumulativeRangeM) := by
  set s := runEvents sq (mkZipScheduler hospitals numZips maxPackagesPerZip zipSpeedMps
    zipMaxCumulativeRangeM) events with hs
  refine ⟨?hrej, ?hacc, ?hnever⟩
  · intro h
    exact ZipScheduler.queueOrder_reject sq s order h
  · intro h
    rw [ZipScheduler.queueOrder_accept sq s order (not_lt.mpr h)]
    constructor
    · show PriorityQueue.size (PriorityQueue.enqueue s.unfulfilledOrders order) =
        PriorityQueue.size s.unfulfilledOrders + 1
      exact PriorityQueue.enqueue_length s.unfulfilledOrders order
    · show order ∈ PriorityQueue.toArray (PriorityQueue.enqueue s.unfulfilledOrders order)
      rw [PriorityQueue.mem_toArray_iff]
      refine ⟨⟨order⟩, ?hmem, rfl⟩
      exact (PriorityQueue.enqueue_perm s.unfulfilledOrders order).mem_iff.mpr
        (List.mem_cons_self _ _)
  · intro f hf o ho
    have hadm : ZipScheduler.AdmissibleQueue sq s :=
      (ZipScheduler.runEvents_invariant sq hospitals numZips maxPackagesPerZip zipSpeedMps
        zipMaxCumulativeRangeM events).1
    by_cases hemp : PriorityQueue.isEmpty (ZipScheduler.releaseReturningZips s t).1.unfulfilledOrders
    · rw [ZipScheduler.launchFlights_empty_case sq s t hemp] at hf
      simp at hf
    · rw [ZipScheduler.launchFlights_loop_case sq s t hemp] at hf
      have hreladm : ZipScheduler.AdmissibleQueue sq (ZipScheduler.releaseReturningZips s t).1 := by
        intro e2 he2
        rw [(ZipScheduler.release_config s t).2.2.2]
        exact hadm e2 he2
      have := ZipScheduler.launchLoop_orders_admissible sq t _ _
        (ZipScheduler.releaseReturningZips s t).1 hreladm f hf o ho
      rw [(ZipScheduler.release_config s t).2.2.2] at this
      exact this

/-- Witness for C3: with range 160 km, an order 90 km out (round trip 180 km)
is rejected with the state unchanged, and an order 100 m out is enqueued. -/
theorem claim_C3_range_rejection_witness :
    (2 * calculateDistance sqrtQ nestPoint
        (Order.hospital ⟨"far", 0, ⟨"F", 90000, 0⟩, Priority.Resupply⟩).toPoint >
      (runEvents sqrtQ (mkZipScheduler [] 10 3 30 160000) []).zipMaxCumulativeRangeM) ∧
    ZipScheduler.queueOrder sqrtQ (runEvents sqrtQ (mkZipScheduler [] 10 3 30 160000) [])
        ⟨"far", 0, ⟨"F", 90000, 0⟩, Priority.Resupply⟩ =
      (runEvents sqrtQ (mkZipScheduler [] 10 3 30 160000) [],
       [LogEvent.errorOrderExceedsRange "far"]) ∧
    (2 * calculateDistance sqrtQ nestPoint
        (Order.hospital ⟨"near", 0, ⟨"N", 100, 0⟩, Priority.Resupply⟩).toPoint ≤
      (runEvents sqrtQ (mkZipScheduler [] 10 3 30 160000) []).zipMaxCumulativeRangeM) ∧
    (ZipScheduler.queueOrder sqrtQ (runEvents sqrtQ (mkZipScheduler [] 10 3 30 160000) [])
        ⟨"near", 0, ⟨"N", 100, 0⟩, Priority.Resupply⟩).1.unfulfilledOrdersCount =
      (runEvents sqrtQ (mkZipScheduler [] 10 3 30 160000) []).unfulfilledOrdersCount + 1 ∧
    (⟨"near", 0, ⟨"N", 100, 0⟩, Priority.Resupply⟩ : Order) ∈
      ZipScheduler.getUnfulfilledOrders (ZipScheduler.queueOrder sqrtQ
        (runEvents sqrtQ (mkZipScheduler [] 10 3 30 160000) [])
        ⟨"near", 0, ⟨"N", 100, 0⟩, Priority.Resupply⟩).1 ∧
    (∀ f ∈ (ZipScheduler.launchFlights sqrtQ
        (runEvents sqrtQ (mkZipScheduler [] 10 3 30 160000) []) 0).1,
      ∀ o ∈ f.orders, 2 * calculateDistance sqrtQ nestPoint o.hospital.toPoint ≤
        (runEvents sqrtQ (mkZipScheduler [] 10 3 30 160000) []).zipMaxCumulativeRangeM) := by
  have hfar : 2 * calculateDistance sqrtQ nestPoint
      (Order.hospital ⟨"far", 0, ⟨"F", 90000, 0⟩, Priority.Resupply⟩).toPoint >
      (runEvents sqrtQ (mkZipScheduler [] 10 3 30 160000) []).zipMaxCumulativeRangeM := by
    norm_num [calculateDistance, Hospital.toPoint, nestPoint, sqrtQ_8100000000,
      runEvents, mkZipScheduler]
  have hnear : 2 * calculateDistance sqrtQ nestPoint
      (Order.hospital ⟨"near", 0, ⟨"N", 100, 0⟩, Priority.Resupply⟩).toPoint ≤
      (runEvents sqrtQ (mkZipScheduler [] 10 3 30 160000) []).zipMaxCumulativeRangeM := by
    norm_num [calculateDistance, Hospital.toPoint, nestPoint, sqrtQ_10000,
      runEvents, mkZipScheduler]
  have h1 := (claim_C3_range_rejection sqrtQ [] 10 3 30 160000 []
    ⟨"far", 0, ⟨"F", 90000, 0⟩, Priority.Resupply⟩ 0).1 hfar
  have h2 := (claim_C3_range_rejection sqrtQ [] 10 3 30 160000 []
    ⟨"near", 0, ⟨"N", 100, 0⟩, Priority.Resupply⟩ 0).2.1 hnear
  have h3 := (claim_C3_range_rejection sqrtQ [] 10 3 30 160000 []
    ⟨"near", 0, ⟨"N", 100, 0⟩, Priority.Resupply⟩ 0).2.2
  exact ⟨hfar, h1, hnear, h2.1, h2.2, h3⟩

/-- C1: in every reachable scheduler state, `launchFlights` never launches a
Resupply-only flight while the available-Zip count (at the moment that flight
is launched, i.e. after release and after the flights before it in this call)
is below the reserved emergency count; and when the post-release available
count is below the reserve and no Emergency order is pending, the whole
dispatch phase is withheld: no flight launches and the queue is unchanged. -/
theorem claim_C1_reservation (sq : ℚ → ℚ)
    (hospitals : List (String × Hospital)) (numZips maxPackagesPerZip : ℕ)
    (zipSpeedMps zipMaxCumulativeRangeM : ℚ) (events : List SchedEvent) (t : ℚ) :
    (∀ i, i < (ZipScheduler.launchFlights sq (runEvents sq (mkZipScheduler hospitals
        numZips maxPackagesPerZip zipSpeedMps zipMaxCumulativeRangeM) events) t).1.length →
      (∀ o ∈ ((ZipScheduler.launchFlights sq (runEvents sq (mkZipScheduler hospitals
          numZips maxPackagesPerZip zipSpeedMps zipMaxCumulativeRangeM) events)
          t).1.getD i default).orders, o.priority = Priority.Resupply) →
      RESERVED_EMERGENCY_ZIPS ≤
        (((ZipScheduler.releaseReturningZips (runEvents sq (mkZipScheduler hospitals
            numZips maxPackagesPerZip zipSpeedMps zipMaxCumulativeRangeM) events)
            t).1.numZips : ℤ) -
          (ZipScheduler.releaseReturningZips (runEvents sq (mkZipScheduler hospitals
            numZips maxPackagesPerZip zipSpeedMps zipMaxCumulativeRangeM) events)
            t).1.activeFlights.length) - i) ∧
    (((((ZipScheduler.releaseReturningZips (runEvents sq (mkZipScheduler hospitals
          numZips maxPackagesPerZip zipSpeedMps zipMaxCumulativeRangeM) events)
          t).1.numZips : ℤ) -
        (ZipScheduler.releaseReturningZips (runEvents sq (mkZipScheduler hospitals
          numZips maxPackagesPerZip zipSpeedMps zipMaxCumulativeRangeM) events)
          t).1.activeFlights.length) < RESERVED_EMERGENCY_ZIPS ∧
      ZipScheduler.countByPriority (ZipScheduler.releaseReturningZips (runEvents sq
        (mkZipScheduler hospitals numZips maxPackagesPerZip zipSpeedMps
          zipMaxCumulativeRangeM) events) t).1 Priority.Emergency = 0) →
      (ZipScheduler.launchFlights sq (runEvents sq (mkZipScheduler hospitals numZips
        maxPackagesPerZip zipSpeedMps zipMaxCumulativeRangeM) events) t).1 = [] ∧
      (ZipScheduler.launchFlights sq (runEvents sq (mkZipScheduler hospitals numZips
        maxPackagesPerZip zipSpeedMps zipMaxCumulativeRangeM) events)
        t).2.1.unfulfilledOrders =
        (runEvents sq (mkZipScheduler hospitals numZips maxPackagesPerZip zipSpeedMps
          zipMaxCumulativeRangeM) events).unfulfilledOrders) := by
  set s := runEvents sq (mkZipScheduler hospitals numZips maxPackagesPerZip zipSpeedMps
    zipMaxCumulativeRangeM) events with hs
  have hadm : ZipScheduler.AdmissibleQueue sq s :=
    (ZipScheduler.runEvents_invariant sq hospitals numZips maxPackagesPerZip zipSpeedMps
      zipMaxCumulativeRangeM events).1
  have hreladm : ZipScheduler.AdmissibleQueue sq (ZipScheduler.releaseReturningZips s t).1 := by
    intro e2 he2
    rw [(ZipScheduler.release_config s t).2.2.2]
    exact hadm e2 he2
  constructor
  · intro i hi hres
    by_cases hemp : PriorityQueue.isEmpty
        (ZipScheduler.releaseReturningZips s t).1.unfulfilledOrders
    · rw [ZipScheduler.launchFlights_empty_case sq s t hemp] at hi
      simp at hi
    · rw [ZipScheduler.launchFlights_loop_case sq s t hemp] at hi hres
      have hcore := ZipScheduler.launchLoop_resupply_reserved sq t
        (((ZipScheduler.releaseReturningZips s t).1.numZips : ℤ) -
          (ZipScheduler.releaseReturningZips s t).1.activeFlights.length).toNat
        (((ZipScheduler.releaseReturningZips s t).1.numZips : ℤ) -
          (ZipScheduler.releaseReturningZips s t).1.activeFlights.length)
        (ZipScheduler.releaseReturningZips s t).1 hreladm i hi hres
      exact hcore
  · intro ⟨hlow, hem⟩
    by_cases hemp : PriorityQueue.isEmpty
        (ZipScheduler.releaseReturningZips s t).1.unfulfilledOrders
    · rw [ZipScheduler.launchFlights_empty_case sq s t hemp]
      exact ⟨rfl, rfl⟩
    · rw [ZipScheduler.launchFlights_loop_case sq s t hemp]
      set avail : ℤ := ((ZipScheduler.releaseReturningZips s t).1.numZips : ℤ) -
        (ZipScheduler.releaseReturningZips s t).1.activeFlights.length with havail
      rcases Nat.eq_zero_or_pos avail.toNat with h0 | hpos
      · rw [h0]
        exact ⟨rfl, rfl⟩
      · obtain ⟨fuel1, hf⟩ : ∃ fuel1, avail.toNat = fuel1 + 1 :=
          ⟨avail.toNat - 1, by omega⟩
        rw [hf]
        by_cases hg : 0 < avail ∧ ¬ PriorityQueue.isEmpty
            (ZipScheduler.releaseReturningZips s t).1.unfulfilledOrders
        · by_cases h1 : ((ZipScheduler.planFlight sq
              (ZipScheduler.releaseReturningZips s t).1).1.1).length = 0
          · rw [ZipScheduler.launchLoop_noplan sq t fuel1 avail _ hg h1]
            exact ⟨rfl, rfl⟩
          · have h2 : ¬ (ZipScheduler.countByPriority
                (ZipScheduler.releaseReturningZips s t).1 Priority.Emergency ≠ 0 ∧
                avail < 1) := by
              rw [hem]
              simp
            rw [ZipScheduler.launchLoop_skip_resupply sq t fuel1 avail _ hg h1 h2
              ⟨hem, hlow⟩]
            exact ⟨rfl, rfl⟩
        · rw [ZipScheduler.launchLoop_stop sq t fuel1 avail _ hg]
          exact ⟨rfl, rfl⟩

/-- Witness for C1: five Zips, one queued Resupply order; `launchFlights`
launches one Resupply-only flight and the theorem yields `4 ≤ 5 - 0`. -/
theorem claim_C1_reservation_witness :
    (0 < (ZipScheduler.launchFlights sqrtQ (runEvents sqrtQ
        (mkZipScheduler [] 5 3 30 160000)
        [SchedEvent.queueOrder ⟨"r1", 0, ⟨"H", 100, 0⟩, Priority.Resupply⟩]) 0).1.length) ∧
    (∀ o ∈ ((ZipScheduler.launchFlights sqrtQ (runEvents sqrtQ
        (mkZipScheduler [] 5 3 30 160000)
        [SchedEvent.queueOrder ⟨"r1", 0, ⟨"H", 100, 0⟩, Priority.Resupply⟩])
        0).1.getD 0 default).orders, o.priority = Priority.Resupply) ∧
    RESERVED_EMERGENCY_ZIPS ≤
      (((ZipScheduler.releaseReturningZips (runEvents sqrtQ
          (mkZipScheduler [] 5 3 30 160000)
          [SchedEvent.queueOrder ⟨"r1", 0, ⟨"H", 100, 0⟩, Priority.Resupply⟩])
          0).1.numZips : ℤ) -
        (ZipScheduler.releaseReturningZips (runEvents sqrtQ
          (mkZipScheduler [] 5 3 30 160000)
          [SchedEvent.queueOrder ⟨"r1", 0, ⟨"H", 100, 0⟩, Priority.Resupply⟩])
          0).1.activeFlights.length) - (0 : ℕ) := by
  have hrun : (ZipScheduler.launchFlights sqrtQ (runEvents sqrtQ
      (mkZipScheduler [] 5 3 30 160000)
      [SchedEvent.queueOrder ⟨"r1", 0, ⟨"H", 100, 0⟩, Priority.Resupply⟩]) 0).1.length = 1 := by
    norm_num [runEvents, applyEvent, ZipScheduler.queueOrder, ZipScheduler.launchFlights,
      ZipScheduler.releaseReturningZips, ZipScheduler.launchLoop, ZipScheduler.planFlight,
      ZipScheduler.planLoop, ZipScheduler.selectOrder, ZipScheduler.findNearestOrder,
      ZipScheduler.nearerOrder, ZipScheduler.getUnfulfilledOrders,
      ZipScheduler.countByPriority, ZipScheduler.dispatchPlannedFlight,
      ZipScheduler.dequeueStep, PriorityQueue.enqueue, PriorityQueue.bubbleUp,
      PriorityQueue.toArray, PriorityQueue.isEmpty, PriorityQueue.dequeueById,
      PriorityQueue.hGet, PriorityQueue.val, calculateDistance, Hospital.toPoint,
      nestPoint, mkZipScheduler, sqrtQ_10000, List.filter_cons, List.findIdx?,
      resupply_ne_emergency, emergency_ne_resupply, RESERVED_EMERGENCY_ZIPS]
  have horders : ((ZipScheduler.launchFlights sqrtQ (runEvents sqrtQ
      (mkZipScheduler [] 5 3 30 160000)
      [SchedEvent.queueOrder ⟨"r1", 0, ⟨"H", 100, 0⟩, Priority.Resupply⟩])
      0).1.getD 0 default).orders = [⟨"r1", 0, ⟨"H", 100, 0⟩, Priority.Resupply⟩] := by
    norm_num [runEvents, applyEvent, ZipScheduler.queueOrder, ZipScheduler.launchFlights,
      ZipScheduler.releaseReturningZips, ZipScheduler.launchLoop, ZipScheduler.planFlight,
      ZipScheduler.planLoop, ZipScheduler.selectOrder, ZipScheduler.findNearestOrder,
      ZipScheduler.nearerOrder, ZipScheduler.getUnfulfilledOrders,
      ZipScheduler.countByPriority, ZipScheduler.dispatchPlannedFlight,
      ZipScheduler.dequeueStep, PriorityQueue.enqueue, PriorityQueue.bubbleUp,
      PriorityQueue.toArray, PriorityQueue.isEmpty, PriorityQueue.dequeueById,
      PriorityQueue.hGet, PriorityQueue.val, calculateDistance, Hospital.toPoint,
      nestPoint, mkZipScheduler, sqrtQ_10000, List.filter_cons, List.findIdx?,
      resupply_ne_emergency, emergency_ne_resupply, RESERVED_EMERGENCY_ZIPS, mkFlight]
  have hres : (∀ o ∈ ((ZipScheduler.launchFlights sqrtQ (runEvents sqrtQ
      (mkZipScheduler [] 5 3 30 160000)
      [SchedEvent.queueOrder ⟨"r1", 0, ⟨"H", 100, 0⟩, Priority.Resupply⟩])
      0).1.getD 0 default).orders, o.priority = Priority.Resupply) := by
    rw [horders]
    intro o ho
    rw [List.mem_singleton.mp ho]
  exact ⟨by omega, hres,
    (claim_C1_reservation sqrtQ [] 5 3 30 160000
      [SchedEvent.queueOrder ⟨"r1", 0, ⟨"H", 100, 0⟩, Priority.Resupply⟩] 0).1 0
      (by omega) hres⟩

/-- Counterexample for C2 (Scenario C): with 5 total Zips, the module reserve
of 4, one reachable pending Resupply order and zero Emergency orders,
`launchFlights` does NOT launch 0 flights — the check `available < reserved`
is `5 < 4`, which fails, so the flight launches. -/
theorem claim_C2_counterexample :
    ¬ (ZipScheduler.launchFlights sqrtQ (runEvents sqrtQ
        (mkZipScheduler [] 5 3 30 160000)
        [SchedEvent.queueOrder ⟨"r1", 0, ⟨"H", 100, 0⟩, Priority.Resupply⟩])
        0).1.length = 0 := by
  have hrun : (ZipScheduler.launchFlights sqrtQ (runEvents sqrtQ
      (mkZipScheduler [] 5 3 30 160000)
      [SchedEvent.queueOrder ⟨"r1", 0, ⟨"H", 100, 0⟩, Priority.Resupply⟩]) 0).1.length = 1 := by
    norm_num [runEvents, applyEvent, ZipScheduler.queueOrder, ZipScheduler.launchFlights,
      ZipScheduler.releaseReturningZips, ZipScheduler.launchLoop, ZipScheduler.planFlight,
      ZipScheduler.planLoop, ZipScheduler.selectOrder, ZipScheduler.findNearestOrder,
      ZipScheduler.nearerOrder, ZipScheduler.getUnfulfilledOrders,
      ZipScheduler.countByPriority, ZipScheduler.dispatchPlannedFlight,
      ZipScheduler.dequeueStep, PriorityQueue.enqueue, PriorityQueue.bubbleUp,
      PriorityQueue.toArray, PriorityQueue.isEmpty, PriorityQueue.dequeueById,
      PriorityQueue.hGet, PriorityQueue.val, calculateDistance, Hospital.toPoint,
      nestPoint, mkZipScheduler, sqrtQ_10000, List.filter_cons, List.findIdx?,
      resupply_ne_emergency, emergency_ne_resupply, RESERVED_EMERGENCY_ZIPS]
  omega

/-- C2 amended: in Scenario C (5 total Zips, reserve 4, exactly one reachable
pending Resupply order, zero Emergency orders) `launchFlights` launches
exactly ONE flight, carrying that order and emptying the queue: with the
spec's own boundary `available < reserved`, `5 < 4` fails, so the Resupply
flight is admitted; 0 flights would require `reserved > 5`. -/
theorem claim_C2_amended :
    ZipScheduler.getUnfulfilledOrders (runEvents sqrtQ (mkZipScheduler [] 5 3 30 160000)
        [SchedEvent.queueOrder ⟨"r1", 0, ⟨"H", 100, 0⟩, Priority.Resupply⟩]) =
      [⟨"r1", 0, ⟨"H", 100, 0⟩, Priority.Resupply⟩] ∧
    ZipScheduler.countByPriority (runEvents sqrtQ (mkZipScheduler [] 5 3 30 160000)
        [SchedEvent.queueOrder ⟨"r1", 0, ⟨"H", 100, 0⟩, Priority.Resupply⟩])
      Priority.Emergency = 0 ∧
    (ZipScheduler.launchFlights sqrtQ (runEvents sqrtQ
        (mkZipScheduler [] 5 3 30 160000)
        [SchedEvent.queueOrder ⟨"r1", 0, ⟨"H", 100, 0⟩, Priority.Resupply⟩])
        0).1.length = 1 ∧
    ((ZipScheduler.launchFlights sqrtQ (runEvents sqrtQ
        (mkZipScheduler [] 5 3 30 160000)
        [SchedEvent.queueOrder ⟨"r1", 0, ⟨"H", 100, 0⟩, Priority.Resupply⟩])
        0).1.getD 0 default).orders = [⟨"r1", 0, ⟨"H", 100, 0⟩, Priority.Resupply⟩] ∧
    (ZipScheduler.launchFlights sqrtQ (runEvents sqrtQ
        (mkZipScheduler [] 5 3 30 160000)
        [SchedEvent.queueOrder ⟨"r1", 0, ⟨"H", 100, 0⟩, Priority.Resupply⟩])
        0).2.1.unfulfilledOrders = [] := by
  refine ⟨?h1, ?h2, ?h3, ?h4, ?h5⟩ <;>
    norm_num [runEvents, applyEvent, ZipScheduler.queueOrder, ZipScheduler.launchFlights,
      ZipScheduler.releaseReturningZips, ZipScheduler.launchLoop, ZipScheduler.planFlight,
      ZipScheduler.planLoop, ZipScheduler.selectOrder, ZipScheduler.findNearestOrder,
      ZipScheduler.nearerOrder, ZipScheduler.getUnfulfilledOrders,
      ZipScheduler.countByPriority, ZipScheduler.dispatchPlannedFlight,
      ZipScheduler.dequeueStep, PriorityQueue.enqueue, PriorityQueue.bubbleUp,
      PriorityQueue.toArray, PriorityQueue.isEmpty, PriorityQueue.dequeueById,
      PriorityQueue.hGet, PriorityQueue.val, calculateDistance, Hospital.toPoint,
      nestPoint, mkZipScheduler, sqrtQ_10000, List.filter_cons, List.findIdx?,
      resupply_ne_emergency, emergency_ne_resupply, RESERVED_EMERGENCY_ZIPS, mkFlight]

/-- C7 (Scenario A): one Zip of capacity 1 and range 10,000 m with two
Emergency orders 3,000 m and 4,000 m out (arriving at t=0 and t=1);
`launchFlights(1)` launches exactly one flight carrying only the nearer
(3,000 m) order — nearest-first, not earliest-arrival-first — and the
4,000 m order stays queued. -/
theorem claim_C7_scenario_A :
    (ZipScheduler.launchFlights sqrtQ (runEvents sqrtQ (mkZipScheduler [] 1 1 30 10000)
        [SchedEvent.queueOrder ⟨"e1", 0, ⟨"H3000", 3000, 0⟩, Priority.Emergency⟩,
         SchedEvent.queueOrder ⟨"e2", 1, ⟨"H4000", 4000, 0⟩, Priority.Emergency⟩])
        1).1.length = 1 ∧
    ((ZipScheduler.launchFlights sqrtQ (runEvents sqrtQ (mkZipScheduler [] 1 1 30 10000)
        [SchedEvent.queueOrder ⟨"e1", 0, ⟨"H3000", 3000, 0⟩, Priority.Emergency⟩,
         SchedEvent.queueOrder ⟨"e2", 1, ⟨"H4000", 4000, 0⟩, Priority.Emergency⟩])
        1).1.getD 0 default).orders =
      [⟨"e1", 0, ⟨"H3000", 3000, 0⟩, Priority.Emergency⟩] ∧
    ZipScheduler.getUnfulfilledOrders (ZipScheduler.launchFlights sqrtQ
        (runEvents sqrtQ (mkZipScheduler [] 1 1 30 10000)
        [SchedEvent.queueOrder ⟨"e1", 0, ⟨"H3000", 3000, 0⟩, Priority.Emergency⟩,
         SchedEvent.queueOrder ⟨"e2", 1, ⟨"H4000", 4000, 0⟩, Priority.Emergency⟩])
        1).2.1 = [⟨"e2", 1, ⟨"H4000", 4000, 0⟩, Priority.Emergency⟩] := by
  refine ⟨?h1, ?h2, ?h3⟩ <;>
    norm_num [runEvents, applyEvent, ZipScheduler.queueOrder, ZipScheduler.launchFlights,
      ZipScheduler.releaseReturningZips, ZipScheduler.launchLoop, ZipScheduler.planFlight,
      ZipScheduler.planLoop, ZipScheduler.selectOrder, ZipScheduler.findNearestOrder,
      ZipScheduler.nearerOrder, ZipScheduler.getUnfulfilledOrders,
      ZipScheduler.countByPriority, ZipScheduler.dispatchPlannedFlight,
      ZipScheduler.dequeueStep, PriorityQueue.enqueue, PriorityQueue.bubbleUp,
      PriorityQueue.bubbleDown, PriorityQueue.smallestIdx, PriorityQueue.swap,
      PriorityQueue.compare, PriorityQueue.priorityIdx, PriorityQueue.toArray,
      PriorityQueue.isEmpty, PriorityQueue.dequeueById, PriorityQueue.hGet,
      PriorityQueue.val, calculateDistance, Hospital.toPoint, nestPoint,
      mkZipScheduler, sqrtQ_9000000, sqrtQ_16000000, List.filter_cons, List.findIdx?,
      resupply_ne_emergency, emergency_ne_resupply, RESERVED_EMERGENCY_ZIPS, mkFlight]

/-- C8: every flight newly launched by `launchFlights(t)` is scheduled with
return time `t + totalDistance / groundspeed` and launch time `t`; the release
step frees exactly the active entries with `returnTime ≤ t` (it runs before
dispatch, on the pre-dispatch active set); Scenario D: a flight launched at
t=100 with round trip 3,000 m at 30 m/s has return time 200, stays active when
releasing at 199, and is freed (its orders counted complete) at 200. -/
theorem claim_C8_return_time (sq : ℚ → ℚ) (s : ZipScheduler) (t : ℚ) :
    (∀ entry ∈ (ZipScheduler.launchFlights sq s t).2.1.activeFlights,
      entry ∈ (ZipScheduler.releaseReturningZips s t).1.activeFlights ∨
        (entry.returnTime = t + entry.flight.totalDistance / s.zipSpeedMps ∧
          entry.flight.launchTime = t)) ∧
    ((ZipScheduler.releaseReturningZips s t).1.activeFlights =
      s.activeFlights.filter (fun entry => ¬ entry.returnTime ≤ t)) ∧
    (((runEvents sqrtQ (mkZipScheduler [] 1 1 30 160000)
        [SchedEvent.queueOrder ⟨"d1", 0, ⟨"HD", 1500, 0⟩, Priority.Emergency⟩,
         SchedEvent.launchFlights 100]).activeFlights.getD 0 default).returnTime = 200 ∧
      ((runEvents sqrtQ (mkZipScheduler [] 1 1 30 160000)
        [SchedEvent.queueOrder ⟨"d1", 0, ⟨"HD", 1500, 0⟩, Priority.Emergency⟩,
         SchedEvent.launchFlights 100]).activeFlights.getD 0
           default).flight.totalDistance = 3000 ∧
      ((runEvents sqrtQ (mkZipScheduler [] 1 1 30 160000)
        [SchedEvent.queueOrder ⟨"d1", 0, ⟨"HD", 1500, 0⟩, Priority.Emergency⟩,
         SchedEvent.launchFlights 100]).activeFlights.getD 0
           default).flight.launchTime = 100 ∧
      (ZipScheduler.launchFlights sqrtQ (runEvents sqrtQ (mkZipScheduler [] 1 1 30 160000)
        [SchedEvent.queueOrder ⟨"d1", 0, ⟨"HD", 1500, 0⟩, Priority.Emergency⟩,
         SchedEvent.launchFlights 100]) 199).2.1.activeFlights.length = 1 ∧
      (ZipScheduler.launchFlights sqrtQ (runEvents sqrtQ (mkZipScheduler [] 1 1 30 160000)
        [SchedEvent.queueOrder ⟨"d1", 0, ⟨"HD", 1500, 0⟩, Priority.Emergency⟩,
         SchedEvent.launchFlights 100]) 199).2.1.completeOrderCount = 0 ∧
      (ZipScheduler.launchFlights sqrtQ (runEvents sqrtQ (mkZipScheduler [] 1 1 30 160000)
        [SchedEvent.queueOrder ⟨"d1", 0, ⟨"HD", 1500, 0⟩, Priority.Emergency⟩,
         SchedEvent.launchFlights 100]) 200).2.1.activeFlights.length = 0 ∧
      (ZipScheduler.launchFlights sqrtQ (runEvents sqrtQ (mkZipScheduler [] 1 1 30 160000)
        [SchedEvent.queueOrder ⟨"d1", 0, ⟨"HD", 1500, 0⟩, Priority.Emergency⟩,
         SchedEvent.launchFlights 100]) 200).2.1.completeOrderCount = 1) := by
  refine ⟨?hfresh, ZipScheduler.release_active s t, ?hscenario⟩
  · intro entry hentry
    by_cases hemp : PriorityQueue.isEmpty
        (ZipScheduler.releaseReturningZips s t).1.unfulfilledOrders
    · rw [ZipScheduler.launchFlights_empty_case sq s t hemp] at hentry
      exact Or.inl hentry
    · rw [ZipScheduler.launchFlights_loop_case sq s t hemp] at hentry
      have := ZipScheduler.launchLoop_active sq t
        (((ZipScheduler.releaseReturningZips s t).1.numZips : ℤ) -
          (ZipScheduler.releaseReturningZips s t).1.activeFlights.length).toNat
        (((ZipScheduler.releaseReturningZips s t).1.numZips : ℤ) -
          (ZipScheduler.releaseReturningZips s t).1.activeFlights.length)
        (ZipScheduler.releaseReturningZips s t).1 entry hentry
      rcases this with h | h
      · exact Or.inl h
      · rw [(ZipScheduler.release_config s t).2.2.1] at h
        exact Or.inr h
  · refine ⟨?s1, ?s2, ?s3, ?s4, ?s5, ?s6, ?s7⟩ <;>
      norm_num [runEvents, applyEvent, ZipScheduler.queueOrder, ZipScheduler.launchFlights,
        ZipScheduler.releaseReturningZips, ZipScheduler.launchLoop, ZipScheduler.planFlight,
        ZipScheduler.planLoop, ZipScheduler.selectOrder, ZipScheduler.findNearestOrder,
        ZipScheduler.nearerOrder, ZipScheduler.getUnfulfilledOrders,
        ZipScheduler.countByPriority, ZipScheduler.dispatchPlannedFlight,
        ZipScheduler.dequeueStep, ZipScheduler.calculateReturnTime, PriorityQueue.enqueue,
        PriorityQueue.bubbleUp, PriorityQueue.toArray, PriorityQueue.isEmpty,
        PriorityQueue.dequeueById, PriorityQueue.hGet, PriorityQueue.val,
        calculateDistance, Hospital.toPoint, nestPoint, mkZipScheduler, sqrtQ_2250000,
        List.filter_cons, List.findIdx?, resupply_ne_emergency, emergency_ne_resupply,
        RESERVED_EMERGENCY_ZIPS, mkFlight]

/-- C9 counterexample: on a state whose queue does not contain a planned stop's
id, the dispatch phase reports dequeue-not-found yet does NOT abort: it still
constructs the Flight record from the diverged plan, schedules its active
entry, and merely logs the mismatch as an error. -/
theorem claim_C9_counterexample :
    (PriorityQueue.dequeueById (mkZipScheduler [] 10 1 30 160000).unfulfilledOrders
      "ghost").1 = none ∧
    (ZipScheduler.dispatchPlannedFlight (mkZipScheduler [] 10 1 30 160000) 0
      [⟨"ghost", 0, ⟨"H", 100, 0⟩, Priority.Emergency⟩] 3000).1 =
      mkFlight 0 [⟨"ghost", 0, ⟨"H", 100, 0⟩, Priority.Emergency⟩] 3000 ∧
    (ZipScheduler.dispatchPlannedFlight (mkZipScheduler [] 10 1 30 160000) 0
      [⟨"ghost", 0, ⟨"H", 100, 0⟩, Priority.Emergency⟩] 3000).2.1.activeFlights =
      [⟨100, mkFlight 0 [⟨"ghost", 0, ⟨"H", 100, 0⟩, Priority.Emergency⟩] 3000⟩] ∧
    (ZipScheduler.dispatchPlannedFlight (mkZipScheduler [] 10 1 30 160000) 0
      [⟨"ghost", 0, ⟨"H", 100, 0⟩, Priority.Emergency⟩] 3000).2.2 =
      [LogEvent.errorFailedDequeue "ghost"] := by
  refine ⟨rfl, rfl, ?hact, rfl⟩
  norm_num [ZipScheduler.dispatchPlannedFlight, ZipScheduler.dequeueStep,
    ZipScheduler.calculateReturnTime, PriorityQueue.dequeueById, mkZipScheduler,
    List.findIdx?]

/-- C9 amended: when removing a planned stop's order by identifier finds
nothing in the queue, `launchFlights`' dispatch phase logs `Failed to dequeue
order` and continues — the Flight record is still constructed from the
diverged plan and its active entry is still scheduled; no abort occurs. -/
theorem claim_C9_amended (s : ZipScheduler) (t : ℚ) (fo : List Order) (td : ℚ)
    (o : Order) (ho : o ∈ fo)
    (habs : ∀ e ∈ s.unfulfilledOrders, ¬ e.order.id = o.id) :
    LogEvent.errorFailedDequeue o.id ∈
      (ZipScheduler.dispatchPlannedFlight s t fo td).2.2 ∧
    (ZipScheduler.dispatchPlannedFlight s t fo td).1 = mkFlight t fo td ∧
    (ZipScheduler.dispatchPlannedFlight s t fo td).2.1.activeFlights =
      s.activeFlights ++
        [⟨ZipScheduler.calculateReturnTime s t td, mkFlight t fo td⟩] := by
  refine ⟨?hlog, rfl, rfl⟩
  show LogEvent.errorFailedDequeue o.id ∈
    (fo.foldl ZipScheduler.dequeueStep (s.unfulfilledOrders, [])).2
  exact ZipScheduler.dequeueFold_error_logged fo s.unfulfilledOrders [] o ho habs

theorem claim_C9_amended_witness :
    LogEvent.errorFailedDequeue "ghost2" ∈
      (ZipScheduler.dispatchPlannedFlight (mkZipScheduler [] 10 1 30 160000) 5
        [⟨"ghost2", 0, ⟨"H", 100, 0⟩, Priority.Resupply⟩] 3000).2.2 ∧
    (ZipScheduler.dispatchPlannedFlight (mkZipScheduler [] 10 1 30 160000) 5
      [⟨"ghost2", 0, ⟨"H", 100, 0⟩, Priority.Resupply⟩] 3000).1 =
      mkFlight 5 [⟨"ghost2", 0, ⟨"H", 100, 0⟩, Priority.Resupply⟩] 3000 ∧
    (ZipScheduler.dispatchPlannedFlight (mkZipScheduler [] 10 1 30 160000) 5
      [⟨"ghost2", 0, ⟨"H", 100, 0⟩, Priority.Resupply⟩] 3000).2.1.activeFlights =
      (mkZipScheduler [] 10 1 30 160000).activeFlights ++
        [⟨ZipScheduler.calculateReturnTime (mkZipScheduler [] 10 1 30 160000) 5 3000,
          mkFlight 5 [⟨"ghost2", 0, ⟨"H", 100, 0⟩, Priority.Resupply⟩] 3000⟩] :=
  claim_C9_amended (mkZipScheduler [] 10 1 30 160000) 5
    [⟨"ghost2", 0, ⟨"H", 100, 0⟩, Priority.Resupply⟩] 3000
    ⟨"ghost2", 0, ⟨"H", 100, 0⟩, Priority.Resupply⟩
    (List.mem_singleton.mpr rfl)
    (by intro e he; simp [mkZipScheduler] at he)

/-- C10: `planFlight` never mutates the scheduler — it plans against the fresh
snapshot `getUnfulfilledOrders` returns, so state and queue are identical
before and after the call; and orders leave the queue only via `dequeueById`
when a flight is committed: provided order ids are distinct, the queue after
`launchFlights` together with the orders of the launched flights is a
permutation of the queue before. -/
theorem claim_C10_frame (sq : ℚ → ℚ) (s : ZipScheduler) (t : ℚ)
    (hnd : (List.map (fun o => o.id)
      (PriorityQueue.toArray s.unfulfilledOrders)).Nodup) :
    (ZipScheduler.planFlight sq s).2 = s ∧
    (ZipScheduler.planFlight sq s).2.unfulfilledOrders = s.unfulfilledOrders ∧
    List.Perm
      (PriorityQueue.toArray
        (ZipScheduler.launchFlights sq s t).2.1.unfulfilledOrders ++
        (((ZipScheduler.launchFlights sq s t).1).map (fun f => f.orders)).flatten)
      (PriorityQueue.toArray s.unfulfilledOrders) := by
  refine ⟨rfl, rfl, ?hperm⟩
  by_cases hemp : PriorityQueue.isEmpty
      (ZipScheduler.releaseReturningZips s t).1.unfulfilledOrders
  · rw [ZipScheduler.launchFlights_empty_case sq s t hemp]
    simp [ZipScheduler.release_queue]
  · rw [ZipScheduler.launchFlights_loop_case sq s t hemp]
    have hnd2 : (List.map (fun o => o.id) (PriorityQueue.toArray
        (ZipScheduler.releaseReturningZips s t).1.unfulfilledOrders)).Nodup := by
      rw [ZipScheduler.release_queue]
      exact hnd
    have h := ZipScheduler.launchLoop_queue_perm sq t
      (((ZipScheduler.releaseReturningZips s t).1.numZips : ℤ) -
        (ZipScheduler.releaseReturningZips s t).1.activeFlights.length).toNat
      (((ZipScheduler.releaseReturningZips s t).1.numZips : ℤ) -
        (ZipScheduler.releaseReturningZips s t).1.activeFlights.length)
      (ZipScheduler.releaseReturningZips s t).1 hnd2
    rw [ZipScheduler.release_queue] at h
    exact h

theorem claim_C10_frame_witness :
    (ZipScheduler.planFlight sqrtQ (runEvents sqrtQ (mkZipScheduler [] 1 1 30 10000)
      [SchedEvent.queueOrder ⟨"w1", 0, ⟨"HW", 3000, 0⟩, Priority.Emergency⟩])).2 =
      runEvents sqrtQ (mkZipScheduler [] 1 1 30 10000)
        [SchedEvent.queueOrder ⟨"w1", 0, ⟨"HW", 3000, 0⟩, Priority.Emergency⟩] ∧
    (ZipScheduler.planFlight sqrtQ (runEvents sqrtQ (mkZipScheduler [] 1 1 30 10000)
      [SchedEvent.queueOrder ⟨"w1", 0, ⟨"HW", 3000, 0⟩,
        Priority.Emergency⟩])).2.unfulfilledOrders =
      (runEvents sqrtQ (mkZipScheduler [] 1 1 30 10000)
        [SchedEvent.queueOrder ⟨"w1", 0, ⟨"HW", 3000, 0⟩,
          Priority.Emergency⟩]).unfulfilledOrders ∧
    List.Perm
      (PriorityQueue.toArray
        (ZipScheduler.launchFlights sqrtQ (runEvents sqrtQ (mkZipScheduler [] 1 1 30 10000)
          [SchedEvent.queueOrder ⟨"w1", 0, ⟨"HW", 3000, 0⟩, Priority.Emergency⟩])
          1).2.1.unfulfilledOrders ++
        (((ZipScheduler.launchFlights sqrtQ (runEvents sqrtQ
            (mkZipScheduler [] 1 1 30 10000)
          [SchedEvent.queueOrder ⟨"w1", 0, ⟨"HW", 3000, 0⟩, Priority.Emergency⟩])
          1).1).map (fun f => f.orders)).flatten)
      (PriorityQueue.toArray (runEvents sqrtQ (mkZipScheduler [] 1 1 30 10000)
        [SchedEvent.queueOrder ⟨"w1", 0, ⟨"HW", 3000, 0⟩,
          Priority.Emergency⟩]).unfulfilledOrders) :=
  claim_C10_frame sqrtQ (runEvents sqrtQ (mkZipScheduler [] 1 1 30 10000)
    [SchedEvent.queueOrder ⟨"w1", 0, ⟨"HW", 3000, 0⟩, Priority.Emergency⟩]) 1
    (by norm_num [runEvents, applyEvent, ZipScheduler.queueOrder,
      PriorityQueue.enqueue, PriorityQueue.bubbleUp, PriorityQueue.toArray,
      PriorityQueue.val, calculateDistance, Hospital.toPoint, nestPoint,
      mkZipScheduler, sqrtQ_9000000])
